import Mathlib

/-! Leg decomposition and comparison pipeline of `fullPropagationMGAtrajectory.cpp`.

A shallow embedding of `fullPropagationMGA` and
`getDifferenceFullPropagationWrtLambertTargeterMGA`
(`Tudat/SimulationSetup/PropagationSetup/fullPropagationMGAtrajectory.cpp`).

Conventions of the embedding:

* `double` values are exact rationals (`ℚ`); `int` and `Eigen::Index` values are
  unbounded integers (`Int`), their machine width is not modelled;
* an `operator[]` read outside a `std::vector` / `Eigen::VectorXd`, and a dereference
  of `begin()` / `rbegin()` of an empty `std::map`, are undefined behaviour in C++ and
  are a fault of the model;
* the functions called but not defined in the file are parameters (`Collaborators`);
  a C++ exception leaving one of them is a fault that aborts the caller, as there is
  no `try` block anywhere in the file;
* every call of `propagateLambertTargeterAndFullProblem` is recorded in a call log.
  Writing to `std::cout` is not modelled.
-/

namespace Tudat

/-! ## Containers -/

/-- Read `v[i]` with a signed index; `none` stands for the out-of-range read. -/
def index? {α : Type} (v : List α) (i : Int) : Option α :=
  if i < 0 then none else v[i.toNat]?

/-- A counting loop `for (int i = 0; i < n; i++) body`, the body acting on the
loop-carried state inside a monad of faults. -/
def forLoop {m : Type → Type} [Monad m] {S : Type} (body : Nat → S → m S) : Nat → S → m S
  | 0, s => pure s
  | n + 1, s => forLoop body n s >>= body n

/-! ## Leg types -/

/-- Modelled from the spec: the enumeration `transfer_trajectories::TransferLegType` is
declared in `trajectory.h`, which is not part of the sources at hand. The variants are the
three of the data model (Departure, Swingby, SwingbyWithDSM); the code only compares a leg
type with `mga_Departure` and `mga_Swingby`. -/
inductive TransferLegType
  | mga_Departure
  | mga_Swingby
  | mga_SwingbyWithDSM
  deriving DecidableEq, Repr

/-- The condition of the `if` of the time-of-flight loop (lines 93-94). -/
def isDepartureOrSwingby (leg : TransferLegType) : Bool :=
  leg == TransferLegType.mga_Departure || leg == TransferLegType.mga_Swingby

/-! ## Time-of-flight resolver (lines 82-115) -/

/-- The variables carried by the time-of-flight loop. -/
structure TimeOfFlightState where
  counterLegTotal : Int
  counterLegWithDSM : Int
  timeOfFlightVector : List ℚ
  deriving DecidableEq

/-- The state before the loop (lines 83-85). -/
def TimeOfFlightState.initial : TimeOfFlightState :=
  { counterLegTotal := 0, counterLegWithDSM := 0, timeOfFlightVector := [] }

/-- One iteration of the loop of lines 91-115. -/
def timeOfFlightStep (numberOfLegs : Int) (legTypeVector : List TransferLegType)
    (trajectoryVariableVector : List ℚ) (i : Nat) (st : TimeOfFlightState) :
    Option TimeOfFlightState := do
  let leg ← index? legTypeVector i
  if isDepartureOrSwingby leg then
    let timeOfFlight ← index? trajectoryVariableVector (1 + st.counterLegTotal)
    pure { counterLegTotal := st.counterLegTotal + 1
           counterLegWithDSM := st.counterLegWithDSM
           timeOfFlightVector := st.timeOfFlightVector ++ [timeOfFlight] }
  else
    let fraction ← index? trajectoryVariableVector (numberOfLegs + 1 + st.counterLegWithDSM * 4)
    let duration ← index? trajectoryVariableVector (st.counterLegTotal + 1)
    let timeOfFlight := fraction * duration
    let pushed := st.timeOfFlightVector ++ [timeOfFlight]
    let fraction2 ← index? trajectoryVariableVector (numberOfLegs + 1 + st.counterLegWithDSM * 4)
    let duration2 ← index? trajectoryVariableVector (st.counterLegTotal + 1)
    let timeOfFlight2 := (1 - fraction2) * duration2
    pure { counterLegTotal := st.counterLegTotal + 1
           counterLegWithDSM := st.counterLegWithDSM + 1
           timeOfFlightVector := pushed ++ [timeOfFlight2] }

/-- The loop of lines 91-115 run for its first `iterations` iterations. -/
def timeOfFlightLoop (numberOfLegs : Int) (legTypeVector : List TransferLegType)
    (trajectoryVariableVector : List ℚ) (iterations : Nat) : Option TimeOfFlightState :=
  forLoop (timeOfFlightStep numberOfLegs legTypeVector trajectoryVariableVector) iterations
    TimeOfFlightState.initial

/-- The time-of-flight resolver: `timeOfFlightVector` after the loop
`for (int i = 0; i < numberOfLegs - 1; i++)`. -/
def resolveTimeOfFlight (numberOfLegs : Int) (legTypeVector : List TransferLegType)
    (trajectoryVariableVector : List ℚ) : Option (List ℚ) :=
  (timeOfFlightLoop numberOfLegs legTypeVector trajectoryVariableVector
    (numberOfLegs - 1).toNat).map TimeOfFlightState.timeOfFlightVector

/-! ### Reference definition of the resolver, following the specification -/

/-- Leg `i` carries a deep-space manoeuvre. -/
def carriesDSM (legTypeVector : List TransferLegType) (i : Nat) : Bool :=
  legTypeVector[i]? == some TransferLegType.mga_SwingbyWithDSM

/-- The number of legs carrying a deep-space manoeuvre among legs `0 .. i-1`. -/
def dsmLegsBefore (legTypeVector : List TransferLegType) (i : Nat) : Nat :=
  ((List.range i).filter (carriesDSM legTypeVector)).length

/-- The entry of the parameter vector at a position, `0` outside the vector. -/
def entry (v : List ℚ) (i : Int) : ℚ := (index? v i).getD 0

/-- The values leg `i` contributes according to the specification. -/
def referenceLegTimes (numberOfLegs : Int) (legTypeVector : List TransferLegType)
    (v : List ℚ) (i : Nat) : List ℚ :=
  if carriesDSM legTypeVector i then
    [entry v (numberOfLegs + 1 + 4 * dsmLegsBefore legTypeVector i) * entry v (1 + i),
     (1 - entry v (numberOfLegs + 1 + 4 * dsmLegsBefore legTypeVector i)) * entry v (1 + i)]
  else
    [entry v (1 + i)]

/-- The concatenation of the contributions of legs `0 .. count-1`. -/
def referenceTimeOfFlight (numberOfLegs : Int) (legTypeVector : List TransferLegType)
    (v : List ℚ) (count : Nat) : List ℚ :=
  ((List.range count).map (referenceLegTimes numberOfLegs legTypeVector v)).flatten

/-- The parameter vector is long enough for the reads the resolver makes at leg `i`. -/
def readsInRange (numberOfLegs : Int) (legTypeVector : List TransferLegType)
    (v : List ℚ) (i : Nat) : Prop :=
  (1 + i < v.length) ∧
    (carriesDSM legTypeVector i = true →
      0 ≤ numberOfLegs + 1 + 4 * (dsmLegsBefore legTypeVector i : Int) ∧
      numberOfLegs + 1 + 4 * (dsmLegsBefore legTypeVector i : Int) < v.length)

/-! ## `std::map` -/

/-- Assignment `m[k] = v` on the entries of a map kept in increasing key order. -/
def insertEntry {κ α : Type} [LinearOrder κ] (k : κ) (v : α) : List (κ × α) → List (κ × α)
  | [] => [(k, v)]
  | (k', v') :: rest =>
    if k < k' then (k, v) :: (k', v') :: rest
    else if k = k' then (k, v) :: rest
    else (k', v') :: insertEntry k v rest

/-- The value stored under a key, if any. -/
def lookupEntry {κ α : Type} [LinearOrder κ] (k : κ) : List (κ × α) → Option α
  | [] => none
  | (k', v') :: rest => if k = k' then some v' else lookupEntry k rest

theorem mem_keys_insertEntry {κ α : Type} [LinearOrder κ] (k : κ) (v : α) (x : κ) :
    ∀ l : List (κ × α), x ∈ (insertEntry k v l).map Prod.fst → x = k ∨ x ∈ l.map Prod.fst := by
  intro l
  induction l with
  | nil => intro h; simpa [insertEntry] using h
  | cons hd tl ih =>
    obtain ⟨k', v'⟩ := hd
    intro h
    unfold insertEntry at h
    split_ifs at h with h1 h2
    · simpa using h
    · subst h2; simp at h; rcases h with h | h
      · exact Or.inl h
      · right; simp; right; simpa using h
    · simp only [List.map_cons, List.mem_cons] at h ⊢
      rcases h with h | h
      · exact Or.inr (Or.inl h)
      · rcases ih h with h | h
        · exact Or.inl h
        · exact Or.inr (Or.inr h)

theorem sorted_insertEntry {κ α : Type} [LinearOrder κ] (k : κ) (v : α) :
    ∀ l : List (κ × α), (l.map Prod.fst).Sorted (· < ·) →
      ((insertEntry k v l).map Prod.fst).Sorted (· < ·) := by
  intro l
  induction l with
  | nil => intro _; simp [insertEntry]
  | cons hd tl ih =>
    obtain ⟨k', v'⟩ := hd
    intro h
    have h' := h
    simp only [List.map_cons, List.sorted_cons] at h'
    unfold insertEntry
    split_ifs with h1 h2
    · simp only [List.map_cons, List.sorted_cons]
      refine ⟨?_, h'⟩
      intro b hb
      simp only [List.mem_cons] at hb
      rcases hb with hb | hb
      · exact hb ▸ h1
      · exact lt_trans h1 (h'.1 b hb)
    · subst h2
      simpa only [List.map_cons, List.sorted_cons] using h'
    · simp only [List.map_cons, List.sorted_cons]
      refine ⟨?_, ih h'.2⟩
      intro b hb
      rcases mem_keys_insertEntry k v b tl hb with hb | hb
      · subst hb
        exact lt_of_le_of_ne (not_lt.mp h1) (fun e => h2 e.symm)
      · exact h'.1 b hb

/-- A `std::map< κ, α >`: its entries in strictly increasing key order. -/
structure StdMap (κ α : Type) [LinearOrder κ] where
  entries : List (κ × α)
  sorted : (entries.map Prod.fst).Sorted (· < ·)

namespace StdMap

variable {κ α : Type} [LinearOrder κ]

/-- A default-constructed map. -/
def empty : StdMap κ α := { entries := [], sorted := by simp }

instance : Inhabited (StdMap κ α) := ⟨empty⟩

/-- The keys in iteration order. -/
def keys (m : StdMap κ α) : List κ := m.entries.map Prod.fst

/-- The value under a key, if present. -/
def find? (m : StdMap κ α) (k : κ) : Option α := lookupEntry k m.entries

/-- The statement `m[k] = v`. -/
def assign (m : StdMap κ α) (k : κ) (v : α) : StdMap κ α :=
  { entries := insertEntry k v m.entries, sorted := sorted_insertEntry k v m.entries m.sorted }

/-- The value of the expression `m[k]` read from a non-const map: the stored value, or
a default-constructed one when the key is absent. -/
def subscript [Inhabited α] (m : StdMap κ α) (k : κ) : α := (m.find? k).getD default

/-- The value `m.begin( )->second`; `none` for the empty map. -/
def beginSecond? (m : StdMap κ α) : Option α := m.entries.head?.map Prod.snd

/-- The value `m.rbegin( )->second`; `none` for the empty map. -/
def rbeginSecond? (m : StdMap κ α) : Option α := m.entries.getLast?.map Prod.snd

end StdMap

/-! ## Data of the pipeline -/

/-- `Eigen::Vector3d`. -/
abbrev Vector3d := Fin 3 → ℚ

/-- `Eigen::Vector6d`. -/
abbrev Vector6d := Fin 6 → ℚ

/-- `std::map< double, Eigen::Vector6d >`, a state history indexed by epoch. -/
abbrev StateHistory := StdMap ℚ Vector6d

/-- `std::map< int, std::map< double, Eigen::Vector6d > >`. -/
abbrev HistoryMap := StdMap Int StateHistory

/-- `std::map< int, std::pair< Eigen::Vector6d, Eigen::Vector6d > >`. -/
abbrev ResidualMap := StdMap Int (Vector6d × Vector6d)

/-- The types declared outside the file and only passed through by it. -/
structure ExternalTypes where
  NamedBodyMap : Type
  AccelerationMap : Type
  IntegratorSettings : Type
  Exception : Type

/-- The ways a run ends without returning. -/
inductive Fault (T : ExternalTypes)
  | undefinedBehaviour
  | thrown (e : T.Exception)

/-- The arguments of `createTransferTrajectoryObject` (lines 58-61). -/
structure TrajectoryArguments where
  transferBodyOrder : List String
  centralBody : String
  legTypeVector : List TransferLegType
  trajectoryVariableVector : List ℚ
  minimumPericenterRadiiVector : List ℚ
  includeDepartureDeltaV : Bool
  departureSemiMajorAxis : ℚ
  departureEccentricity : ℚ
  includeArrivalDeltaV : Bool
  arrivalSemiMajorAxis : ℚ
  arrivalEccentricity : ℚ

/-- The arguments of one call of `propagateLambertTargeterAndFullProblem`
(lines 142-145), the body map apart; `flag1` and `flag2` are the two trailing boolean
arguments, whose parameter names are declared outside the file. -/
structure PropagationCall (T : ExternalTypes) where
  cartesianPositionAtDeparture : Vector3d
  cartesianPositionAtArrival : Vector3d
  timeOfFlight : ℚ
  initialTime : ℚ
  accelerationMap : T.AccelerationMap
  bodyToPropagate : List String
  centralBody : List String
  integratorSettings : T.IntegratorSettings
  departureAndArrivalBodies : List String
  flag1 : Bool
  flag2 : Bool

/-- The functions the file calls and does not define. Each may change the body map,
which it receives by non-const reference, and may throw. -/
structure Collaborators (T : ExternalTypes) where
  /-- The calls `createTransferTrajectoryObject`, `calculateTrajectory` and `maneuvers`
  (lines 58-61 and 75-76); the result is `positionVector`. -/
  trajectoryManeuvers : T.NamedBodyMap → TrajectoryArguments →
    Except T.Exception (List Vector3d) × T.NamedBodyMap
  /-- The call of lines 142-145; the result is the pair
  `(lambertTargeterResultForOneLeg, fullProblemResultForOneLeg)`. -/
  propagateLambertTargeterAndFullProblem : T.NamedBodyMap → PropagationCall T →
    Except T.Exception (StateHistory × StateHistory) × T.NamedBodyMap

/-- The parameters both functions share, the body map apart. -/
structure Inputs (T : ExternalTypes) where
  accelerationMap : T.AccelerationMap
  numberOfLegs : Int
  transferBodyOrder : List String
  bodiesAndManoeuvresOrder : List String
  centralBody : List String
  bodyToPropagate : List String
  legTypeVector : List TransferLegType
  trajectoryVariableVector : List ℚ
  minimumPericenterRadiiVector : List ℚ
  semiMajorAxesVector : List ℚ
  eccentricitiesVector : List ℚ
  integratorSettings : T.IntegratorSettings

/-- What the run of `fullPropagationMGA` reads and writes: the body map, its two output
maps, and the log of the calls of `propagateLambertTargeterAndFullProblem` made so far. -/
structure State (T : ExternalTypes) where
  bodyMap : T.NamedBodyMap
  calls : List (PropagationCall T)
  lambertTargeterResultForEachLeg : HistoryMap
  fullProblemResultForEachLeg : HistoryMap

/-- The state in which `getDifferenceFullPropagationWrtLambertTargeterMGA` calls
`fullPropagationMGA`: both maps freshly constructed (lines 179-180). -/
def State.fresh {T : ExternalTypes} (bodyMap : T.NamedBodyMap) : State T :=
  { bodyMap := bodyMap, calls := []
    lambertTargeterResultForEachLeg := StdMap.empty
    fullProblemResultForEachLeg := StdMap.empty }

/-! ## Leg count (lines 64 and 176) -/

/-- Conversion of a `double` to `int`: truncation toward zero. -/
def truncateToInt (x : ℚ) : Int := if 0 ≤ x then ⌊x⌋ else ⌈x⌉

/-- Line 64: `((trajectoryVariableVector.size()-1-numberOfLegs)/4.0) + numberOfLegs`
converted to `int`, in `fullPropagationMGA`. -/
def fullPropagationMGA_numberLegsIncludingDSM (size : Int) (numberOfLegs : Int) : Int :=
  truncateToInt ((((size - 1 - numberOfLegs : Int) : ℚ) / 4) + (numberOfLegs : ℚ))

/-- Line 176: the same expression in `getDifferenceFullPropagationWrtLambertTargeterMGA`. -/
def getDifference_numberLegsIncludingDSM (size : Int) (numberOfLegs : Int) : Int :=
  truncateToInt ((((size - 1 - numberOfLegs : Int) : ℚ) / 4) + (numberOfLegs : ℚ))

/-! ## `fullPropagationMGA` (lines 39-155) -/

/-- Evaluation of the arguments of `createTransferTrajectoryObject`. -/
def trajectoryArguments {T : ExternalTypes} (inp : Inputs T) : Option TrajectoryArguments := do
  let centralBody0 ← index? inp.centralBody 0
  let a0 ← index? inp.semiMajorAxesVector 0
  let e0 ← index? inp.eccentricitiesVector 0
  let a1 ← index? inp.semiMajorAxesVector 1
  let e1 ← index? inp.eccentricitiesVector 1
  pure { transferBodyOrder := inp.transferBodyOrder
         centralBody := centralBody0
         legTypeVector := inp.legTypeVector
         trajectoryVariableVector := inp.trajectoryVariableVector
         minimumPericenterRadiiVector := inp.minimumPericenterRadiiVector
         includeDepartureDeltaV := true
         departureSemiMajorAxis := a0
         departureEccentricity := e0
         includeArrivalDeltaV := true
         arrivalSemiMajorAxis := a1
         arrivalEccentricity := e1 }

/-- The arguments of the call of iteration `i` of the loop of lines 119-152. -/
def propagationCall {T : ExternalTypes} (inp : Inputs T) (positionVector : List Vector3d)
    (timeOfFlightVector : List ℚ) (i : Nat) : Option (PropagationCall T) := do
  let departure ← index? positionVector i
  let arrival ← index? positionVector (i + 1)
  let body0 ← index? inp.bodiesAndManoeuvresOrder i
  let body1 ← index? inp.bodiesAndManoeuvresOrder (1 + i)
  let timeOfFlight ← index? timeOfFlightVector i
  pure { cartesianPositionAtDeparture := departure
         cartesianPositionAtArrival := arrival
         timeOfFlight := timeOfFlight
         initialTime := 0
         accelerationMap := inp.accelerationMap
         bodyToPropagate := inp.bodyToPropagate
         centralBody := inp.centralBody
         integratorSettings := inp.integratorSettings
         departureAndArrivalBodies := [body0, body1]
         flag1 := false
         flag2 := false }

/-- One iteration of the loop of lines 119-152. -/
def propagationStep {T : ExternalTypes} (env : Collaborators T) (inp : Inputs T)
    (positionVector : List Vector3d) (timeOfFlightVector : List ℚ) (i : Nat) (st : State T) :
    Except (Fault T × State T) (State T) :=
  match propagationCall inp positionVector timeOfFlightVector i with
  | none => .error (.undefinedBehaviour, st)
  | some call =>
    match env.propagateLambertTargeterAndFullProblem st.bodyMap call with
    | (.error e, bodyMap) =>
      .error (.thrown e, { st with bodyMap := bodyMap, calls := st.calls ++ [call] })
    | (.ok (lambertTargeterResultForOneLeg, fullProblemResultForOneLeg), bodyMap) =>
      .ok { bodyMap := bodyMap
            calls := st.calls ++ [call]
            lambertTargeterResultForEachLeg :=
              st.lambertTargeterResultForEachLeg.assign i lambertTargeterResultForOneLeg
            fullProblemResultForEachLeg :=
              st.fullProblemResultForEachLeg.assign i fullProblemResultForOneLeg }

/-- The loop of lines 119-152 run for its first `iterations` iterations. -/
def propagationLoop {T : ExternalTypes} (env : Collaborators T) (inp : Inputs T)
    (positionVector : List Vector3d) (timeOfFlightVector : List ℚ) (iterations : Nat)
    (st : State T) : Except (Fault T × State T) (State T) :=
  forLoop (propagationStep env inp positionVector timeOfFlightVector) iterations st

/-- The function `fullPropagationMGA`. A fault carries the state in which it occurred. -/
def fullPropagationMGA {T : ExternalTypes} (env : Collaborators T) (inp : Inputs T)
    (st : State T) : Except (Fault T × State T) (State T) :=
  match trajectoryArguments inp with
  | none => .error (.undefinedBehaviour, st)
  | some arguments =>
    match env.trajectoryManeuvers st.bodyMap arguments with
    | (.error e, bodyMap) => .error (.thrown e, { st with bodyMap := bodyMap })
    | (.ok positionVector, bodyMap) =>
      let numberLegsIncludingDSM :=
        fullPropagationMGA_numberLegsIncludingDSM inp.trajectoryVariableVector.length
          inp.numberOfLegs
      match resolveTimeOfFlight inp.numberOfLegs inp.legTypeVector
          inp.trajectoryVariableVector with
      | none => .error (.undefinedBehaviour, { st with bodyMap := bodyMap })
      | some timeOfFlightVector =>
        propagationLoop env inp positionVector timeOfFlightVector
          (numberLegsIncludingDSM - 1).toNat { st with bodyMap := bodyMap }

/-! ## `getDifferenceFullPropagationWrtLambertTargeterMGA` (lines 160-213) -/

/-- Lines 196-204: the pair of state differences of one leg, from its two histories. -/
def endpointDifference (lambertTargeterResultCurrentLeg fullProblemResultCurrentLeg :
    StateHistory) : Option (Vector6d × Vector6d) := do
  let stateLambertTargeterAtDepartureForOneLeg ← lambertTargeterResultCurrentLeg.beginSecond?
  let stateFullProblemAtDepartureForOneLeg ← fullProblemResultCurrentLeg.beginSecond?
  let stateLambertTargeterAtArrivalForOneLeg ← lambertTargeterResultCurrentLeg.rbeginSecond?
  let stateFullProblemAtArrivalForOneLeg ← fullProblemResultCurrentLeg.rbeginSecond?
  pure (stateLambertTargeterAtDepartureForOneLeg - stateFullProblemAtDepartureForOneLeg,
        stateLambertTargeterAtArrivalForOneLeg - stateFullProblemAtArrivalForOneLeg)

/-- One iteration of the loop of lines 191-208. -/
def differenceStep (lambertTargeterResultForEachLeg fullProblemResultForEachLeg : HistoryMap)
    (i : Nat) (stateDifferenceAtArrivalAndDepartureForEachLeg : ResidualMap) :
    Option ResidualMap := do
  let difference ← endpointDifference (lambertTargeterResultForEachLeg.subscript i)
    (fullProblemResultForEachLeg.subscript i)
  pure (stateDifferenceAtArrivalAndDepartureForEachLeg.assign i difference)

/-- The loop of lines 191-208 run for its first `iterations` iterations. -/
def differenceLoop (lambertTargeterResultForEachLeg fullProblemResultForEachLeg : HistoryMap)
    (iterations : Nat) : Option ResidualMap :=
  forLoop (differenceStep lambertTargeterResultForEachLeg fullProblemResultForEachLeg)
    iterations StdMap.empty

/-- The function `getDifferenceFullPropagationWrtLambertTargeterMGA`: the returned map,
with the state `fullPropagationMGA` left behind (body map, call log and the two local
maps). A fault carries the state in which it occurred. -/
def getDifferenceFullPropagationWrtLambertTargeterMGA {T : ExternalTypes}
    (env : Collaborators T) (inp : Inputs T) (bodyMap : T.NamedBodyMap) :
    Except (Fault T × State T) (ResidualMap × State T) :=
  let numberLegsIncludingDSM :=
    getDifference_numberLegsIncludingDSM inp.trajectoryVariableVector.length inp.numberOfLegs
  match fullPropagationMGA env inp (State.fresh bodyMap) with
  | .error fault => .error fault
  | .ok st =>
    match differenceLoop st.lambertTargeterResultForEachLeg st.fullProblemResultForEachLeg
        (numberLegsIncludingDSM - 1).toNat with
    | none => .error (.undefinedBehaviour, st)
    | some stateDifferenceAtArrivalAndDepartureForEachLeg =>
      .ok (stateDifferenceAtArrivalAndDepartureForEachLeg, st)


/-! ## Example data -/

/-- Example external types: the body map is a counter of collaborator calls, an exception is
its message. -/
abbrev exampleTypes : ExternalTypes :=
  { NamedBodyMap := Nat, AccelerationMap := Unit, IntegratorSettings := Unit
    Exception := String }

/-- An analytic history with two epochs. -/
def exampleLambertHistory : StateHistory :=
  { entries := [(0, fun _ => 1), (10, fun _ => 5)], sorted := by simp }

/-- A numerical history with three epochs. -/
def exampleFullHistory : StateHistory :=
  { entries := [(0, fun _ => 1), (5, fun _ => 2), (10, fun _ => 3)]
    sorted := by simp; norm_num }

/-- Four boundary positions. -/
def examplePositions : List Vector3d := [fun _ => 0, fun _ => 1, fun _ => 2, fun _ => 3]

/-- Collaborators that always return. -/
def reliableCollaborators : Collaborators exampleTypes :=
  { trajectoryManeuvers := fun bodyMap _ => (.ok examplePositions, bodyMap + 1)
    propagateLambertTargeterAndFullProblem := fun bodyMap _ =>
      (.ok (exampleLambertHistory, exampleFullHistory), bodyMap + 1) }

/-- Collaborators whose propagation throws on the leg with time of flight `20` and returns
on every other leg. -/
def failingCollaborators : Collaborators exampleTypes :=
  { trajectoryManeuvers := fun bodyMap _ => (.ok examplePositions, bodyMap + 1)
    propagateLambertTargeterAndFullProblem := fun bodyMap call =>
      if call.timeOfFlight = 20 then (.error "IntegrationError", bodyMap + 1)
      else (.ok (exampleLambertHistory, exampleFullHistory), bodyMap + 1) }

/-- Example inputs around a leg count, a leg-type sequence and a parameter vector. -/
def exampleInputs (numberOfLegs : Int) (legTypeVector : List TransferLegType)
    (trajectoryVariableVector : List ℚ) : Inputs exampleTypes :=
  { accelerationMap := ()
    numberOfLegs := numberOfLegs
    transferBodyOrder := ["Earth", "Venus", "Mars"]
    bodiesAndManoeuvresOrder := ["Earth", "Venus", "Mars", "Jupiter"]
    centralBody := ["Sun"]
    bodyToPropagate := ["Spacecraft"]
    legTypeVector := legTypeVector
    trajectoryVariableVector := trajectoryVariableVector
    minimumPericenterRadiiVector := [1, 1, 1]
    semiMajorAxesVector := [2, 3]
    eccentricitiesVector := [0, 0]
    integratorSettings := () }

/-- Three legs without DSM and a vector of consistent length `4`. -/
def threeLegInputs : Inputs exampleTypes :=
  exampleInputs 3
    [TransferLegType.mga_Departure, TransferLegType.mga_Swingby, TransferLegType.mga_Swingby]
    [0, 10, 20, 1]

/-- Two legs without DSM and a vector of length `4`, one entry more than `numberOfLegs + 1`. -/
def inconsistentInputs : Inputs exampleTypes :=
  exampleInputs 2 [TransferLegType.mga_Departure, TransferLegType.mga_Swingby] [0, 10, 20, 5]

/-- No leg at all: `numberOfLegs = 0` and an empty leg-type sequence. -/
def emptyLegInputs : Inputs exampleTypes := exampleInputs 0 [] [0]

/-- Two legs, the last one with a DSM, and a vector of length `1 + 2 + 4 * 1`. -/
def lastLegDSMInputs : Inputs exampleTypes :=
  exampleInputs 2 [TransferLegType.mga_Departure, TransferLegType.mga_SwingbyWithDSM]
    [0, 10, 20, 1 / 2, 0, 0, 0]


/-! ## Lemmas on the containers and the loop -/

theorem index?_of_lt {v : List ℚ} {i : Int} (h0 : 0 ≤ i) (h1 : i < v.length) :
    index? v i = some (entry v i) := by
  have hlt : i.toNat < v.length := by omega
  simp [entry, index?, Int.not_lt.mpr h0, List.getElem?_eq_getElem hlt]

theorem index?_nat_of_lt {α : Type} {v : List α} {i : Nat} (h : i < v.length) :
    index? v (i : Int) = some (v[i]) := by
  simp [index?, List.getElem?_eq_getElem h]

theorem index?_eq_some {α : Type} {v : List α} {i : Int} {x : α} (h : index? v i = some x) :
    0 ≤ i ∧ i < v.length ∧ v[i.toNat]? = some x := by
  unfold index? at h
  split_ifs at h with hneg
  have hlt : i.toNat < v.length := by
    by_contra hc
    rw [List.getElem?_eq_none (by omega)] at h
    exact Option.noConfusion h
  exact ⟨by omega, by omega, h⟩

theorem forLoop_succ {m : Type → Type} [Monad m] {S : Type} (body : Nat → S → m S)
    (n : Nat) (s : S) : forLoop body (n + 1) s = forLoop body n s >>= body n := rfl

theorem forLoop_zero {m : Type → Type} [Monad m] {S : Type} (body : Nat → S → m S)
    (s : S) : forLoop body 0 s = pure s := rfl

/-! ## The time-of-flight resolver -/

theorem carriesDSM_eq_not_isDepartureOrSwingby (legs : List TransferLegType) (j : Nat)
    (h : j < legs.length) : carriesDSM legs j = !isDepartureOrSwingby legs[j] := by
  unfold carriesDSM isDepartureOrSwingby
  rw [List.getElem?_eq_getElem h]
  cases legs[j] <;> rfl

theorem dsmLegsBefore_succ (legs : List TransferLegType) (j : Nat) :
    dsmLegsBefore legs (j + 1) =
      dsmLegsBefore legs j + (if carriesDSM legs j then 1 else 0) := by
  unfold dsmLegsBefore
  rw [List.range_succ, List.filter_append]
  by_cases h : carriesDSM legs j <;> simp [h]

theorem referenceTimeOfFlight_succ (n : Int) (legs : List TransferLegType) (v : List ℚ)
    (j : Nat) :
    referenceTimeOfFlight n legs v (j + 1) =
      referenceTimeOfFlight n legs v j ++ referenceLegTimes n legs v j := by
  simp [referenceTimeOfFlight, List.range_succ]

theorem referenceTimeOfFlight_length (n : Int) (legs : List TransferLegType) (v : List ℚ) :
    ∀ j : Nat, (referenceTimeOfFlight n legs v j).length = j + dsmLegsBefore legs j := by
  intro j
  induction j with
  | zero => simp [referenceTimeOfFlight, dsmLegsBefore]
  | succ j ih =>
    rw [referenceTimeOfFlight_succ, List.length_append, ih, dsmLegsBefore_succ]
    by_cases h : carriesDSM legs j <;> simp [referenceLegTimes, h] <;> omega

theorem referenceTimeOfFlight_extends (n : Int) (legs : List TransferLegType) (v : List ℚ)
    (j : Nat) : ∀ m : Nat, j ≤ m →
      ∃ rest, referenceTimeOfFlight n legs v m = referenceTimeOfFlight n legs v j ++ rest := by
  intro m
  induction m with
  | zero =>
    intro h
    have : j = 0 := by omega
    subst this
    exact ⟨[], by simp⟩
  | succ m ih =>
    intro h
    by_cases hj : j = m + 1
    · subst hj; exact ⟨[], by simp⟩
    · obtain ⟨rest, hrest⟩ := ih (by omega)
      exact ⟨rest ++ referenceLegTimes n legs v m, by
        rw [referenceTimeOfFlight_succ, hrest, List.append_assoc]⟩

/-- The loop invariant of the resolver: after `j` iterations whose reads are in range, the
total-leg counter is `j`, the DSM counter is the number of DSM legs so far, and the vector is
the reference concatenation. -/
theorem timeOfFlightLoop_eq (n : Int) (legs : List TransferLegType) (v : List ℚ) :
    ∀ j : Nat, j ≤ legs.length → (∀ i, i < j → readsInRange n legs v i) →
      timeOfFlightLoop n legs v j =
        some { counterLegTotal := j
               counterLegWithDSM := dsmLegsBefore legs j
               timeOfFlightVector := referenceTimeOfFlight n legs v j } := by
  intro j
  induction j with
  | zero =>
    intro _ _
    simp [timeOfFlightLoop, forLoop, TimeOfFlightState.initial, dsmLegsBefore,
      referenceTimeOfFlight]
  | succ j ih =>
    intro hj hreads
    have hprev := ih (by omega) (fun i hi => hreads i (by omega))
    have hleg : j < legs.length := by omega
    obtain ⟨hr1, hr2⟩ := hreads j (by omega)
    unfold timeOfFlightLoop at hprev ⊢
    rw [forLoop_succ, hprev]
    have hidx : index? legs (j : Int) = some legs[j] := index?_nat_of_lt hleg
    have hd : index? v (1 + (j : Int)) = some (entry v (1 + (j : Int))) :=
      index?_of_lt (by omega) (by omega)
    have hd2 : index? v ((j : Int) + 1) = some (entry v (1 + (j : Int))) := by
      rw [add_comm]; exact hd
    have hc := carriesDSM_eq_not_isDepartureOrSwingby legs j hleg
    by_cases hdep : isDepartureOrSwingby legs[j] = true
    · have hc2 : carriesDSM legs j = false := by simp [hc, hdep]
      simp [timeOfFlightStep, hidx, hdep, hd, dsmLegsBefore_succ, hc2,
        referenceTimeOfFlight_succ, referenceLegTimes]
    · have hc2 : carriesDSM legs j = true := by simp [hc, hdep]
      have hf := hr2 hc2
      have hfr : index? v (n + 1 + (dsmLegsBefore legs j : Int) * 4) =
          some (entry v (n + 1 + 4 * (dsmLegsBefore legs j : Int))) := by
        rw [mul_comm]; exact index?_of_lt hf.1 hf.2
      simp [timeOfFlightStep, hidx, hdep, hd2, hfr, dsmLegsBefore_succ, hc2,
        referenceTimeOfFlight_succ, referenceLegTimes]

/-- A run of the loop that does not fault made all its reads in range. -/
theorem timeOfFlightLoop_reads (n : Int) (legs : List TransferLegType) (v : List ℚ) :
    ∀ j : Nat, ∀ st, timeOfFlightLoop n legs v j = some st →
      j ≤ legs.length ∧ ∀ i, i < j → readsInRange n legs v i := by
  intro j
  induction j with
  | zero => intro st _; exact ⟨Nat.zero_le _, fun i hi => absurd hi (Nat.not_lt_zero i)⟩
  | succ j ih =>
    intro st hst
    unfold timeOfFlightLoop at hst
    rw [forLoop_succ] at hst
    cases hprev : forLoop (timeOfFlightStep n legs v) j TimeOfFlightState.initial with
    | none => rw [hprev] at hst; exact Option.noConfusion hst
    | some st' =>
      rw [hprev] at hst
      obtain ⟨hle, hreads⟩ := ih st' hprev
      have heq := timeOfFlightLoop_eq n legs v j hle hreads
      unfold timeOfFlightLoop at heq
      rw [hprev] at heq
      injection heq with heq
      subst heq
      change timeOfFlightStep n legs v j _ = some st at hst
      unfold timeOfFlightStep at hst
      cases hleg : index? legs (j : Int) with
      | none => simp [hleg] at hst
      | some leg =>
        obtain ⟨_, hlt, hget⟩ := index?_eq_some hleg
        have hjl : j < legs.length := by omega
        have hlegeq : legs[j] = leg := by
          have := hget
          simp [List.getElem?_eq_getElem hjl] at this
          exact this
        have hc := carriesDSM_eq_not_isDepartureOrSwingby legs j hjl
        rw [hlegeq] at hc
        refine ⟨by omega, ?_⟩
        intro i hi
        by_cases hij : i = j
        · subst hij
          by_cases hdep : isDepartureOrSwingby leg = true
          · simp only [hleg, hdep, Option.bind_eq_bind, Option.some_bind, if_true] at hst
            cases hread : index? v (1 + (i : Int)) with
            | none => simp [hread] at hst
            | some x =>
              obtain ⟨_, hx, _⟩ := index?_eq_some hread
              exact ⟨by omega, fun hd => by simp [hc, hdep] at hd⟩
          · simp only [hleg, hdep, Option.bind_eq_bind, Option.some_bind] at hst
            cases hfr : index? v (n + 1 + (dsmLegsBefore legs i : Int) * 4) with
            | none => simp [hfr] at hst
            | some f =>
              cases hread : index? v ((i : Int) + 1) with
              | none => simp [hfr, hread] at hst
              | some x =>
                obtain ⟨_, hx, _⟩ := index?_eq_some hread
                obtain ⟨hf0, hf1, _⟩ := index?_eq_some hfr
                exact ⟨by omega, fun _ => ⟨by omega, by omega⟩⟩
        · exact hreads i (by omega)

theorem resolveTimeOfFlight_eq_reference (n : Int) (legs : List TransferLegType)
    (v out : List ℚ) (h : resolveTimeOfFlight n legs v = some out) :
    out = referenceTimeOfFlight n legs v (n - 1).toNat := by
  unfold resolveTimeOfFlight at h
  cases hloop : timeOfFlightLoop n legs v (n - 1).toNat with
  | none => rw [hloop] at h; exact Option.noConfusion h
  | some st =>
    obtain ⟨hle, hreads⟩ := timeOfFlightLoop_reads n legs v _ st hloop
    rw [timeOfFlightLoop_eq n legs v _ hle hreads] at h
    simp only [Option.map_some'] at h
    injection h with h
    exact h.symm

theorem referenceTimeOfFlight_no_dsm (n : Int) (legs : List TransferLegType) (v : List ℚ)
    (hno : ∀ i, carriesDSM legs i = false) :
    ∀ j : Nat, j + 1 ≤ v.length →
      referenceTimeOfFlight n legs v j = (v.drop 1).take j := by
  intro j
  induction j with
  | zero => intro _; simp [referenceTimeOfFlight]
  | succ j ih =>
    intro hj
    have hlt : j < (v.drop 1).length := by simp; omega
    have hent : entry v (1 + (j : Int)) = (v.drop 1)[j] := by
      have e : (1 + (j : Int)) = ((j + 1 : Nat) : Int) := by omega
      have hl : j + 1 < v.length := by omega
      rw [entry, e, index?_nat_of_lt hl, List.getElem_drop]
      simp [add_comm]
    rw [referenceTimeOfFlight_succ, ih (by omega), List.take_succ,
      List.getElem?_eq_getElem hlt]
    simp [referenceLegTimes, hno j, hent]

theorem truncateToInt_of_nonneg (x : ℚ) (h : 0 ≤ x) : truncateToInt x = ⌊x⌋ := by
  simp [truncateToInt, h]

theorem numberLegsIncludingDSM_eq (size n : Int) (h : 0 ≤ size - 1 + 3 * n) :
    fullPropagationMGA_numberLegsIncludingDSM size n = (size - 1 - n) / 4 + n := by
  unfold fullPropagationMGA_numberLegsIncludingDSM
  have hx : (0 : ℚ) ≤ (((size - 1 - n : Int) : ℚ) / 4) + (n : ℚ) := by
    have h' : (0 : ℚ) ≤ ((size - 1 + 3 * n : Int) : ℚ) := by exact_mod_cast h
    push_cast at h' ⊢
    linarith
  rw [truncateToInt_of_nonneg _ hx, Int.floor_add_int]
  have := Rat.floor_intCast_div_natCast (size - 1 - n) 4
  simp only [Nat.cast_ofNat] at this
  rw [this]

/-! ## Claims on the time-of-flight resolver and on the leg count -/

/-- C1: for `numberOfLegs = n ≥ 1`, a leg-type sequence of length `n` and a parameter vector
long enough for the reads, the resolver's `timeOfFlightVector` is the reference
concatenation over legs `0 .. n-2`; after `i` iterations the total-leg counter is `i` and the
DSM counter is the number of DSM legs among legs `0 .. i-1`. -/
theorem timeOfFlightVector_eq_reference (n : Int) (legs : List TransferLegType) (v : List ℚ)
    (hn : 1 ≤ n) (hlen : (legs.length : Int) = n)
    (hreads : ∀ i : Nat, (i : Int) < n - 1 → readsInRange n legs v i) :
    resolveTimeOfFlight n legs v = some (referenceTimeOfFlight n legs v (n - 1).toNat) ∧
    ∀ i : Nat, (i : Int) ≤ n - 1 →
      timeOfFlightLoop n legs v i =
        some { counterLegTotal := i
               counterLegWithDSM := dsmLegsBefore legs i
               timeOfFlightVector := referenceTimeOfFlight n legs v i } := by
  have hloop : ∀ i : Nat, (i : Int) ≤ n - 1 →
      timeOfFlightLoop n legs v i =
        some { counterLegTotal := i
               counterLegWithDSM := dsmLegsBefore legs i
               timeOfFlightVector := referenceTimeOfFlight n legs v i } := by
    intro i hi
    exact timeOfFlightLoop_eq n legs v i (by omega) (fun k hk => hreads k (by omega))
  refine ⟨?_, hloop⟩
  unfold resolveTimeOfFlight
  rw [hloop (n - 1).toNat (by omega)]
  rfl

/-- Witness of C1: three legs, the second one with a DSM. -/
theorem timeOfFlightVector_eq_reference_witness :
    resolveTimeOfFlight 3
        [TransferLegType.mga_Departure, TransferLegType.mga_SwingbyWithDSM,
          TransferLegType.mga_Swingby] [0, 10, 20, 1, 1 / 4, 0, 0, 0] =
      some (referenceTimeOfFlight 3
        [TransferLegType.mga_Departure, TransferLegType.mga_SwingbyWithDSM,
          TransferLegType.mga_Swingby] [0, 10, 20, 1, 1 / 4, 0, 0, 0] 2) ∧
    referenceTimeOfFlight 3
        [TransferLegType.mga_Departure, TransferLegType.mga_SwingbyWithDSM,
          TransferLegType.mga_Swingby] [0, 10, 20, 1, 1 / 4, 0, 0, 0] 2 = [10, 5, 15] :=
  ⟨(timeOfFlightVector_eq_reference 3 _ _ (by decide) (by decide) (by
      intro i hi
      have hi2 : i < 2 := by omega
      interval_cases i <;> exact ⟨by decide, by decide⟩)).1,
    by
      simp [referenceTimeOfFlight, referenceLegTimes, carriesDSM, dsmLegsBefore, entry, index?,
        List.range_succ]
      norm_num⟩

/-- C2: for a DSM leg `i` processed by the resolver, with split fraction `f` and raw
duration `T` as read from the parameter vector, the vector holds `f * T` directly followed
by the post-DSM value, after the `i + k` values of the earlier legs, and the two sum to
`T`. -/
theorem dsm_leg_emits_consecutive_split (n : Int) (legs : List TransferLegType)
    (v out : List ℚ) (hres : resolveTimeOfFlight n legs v = some out)
    (i : Nat) (hi : (i : Int) < n - 1) (hdsm : carriesDSM legs i = true) :
    ∃ before tofPost after,
      out = before ++ (entry v (n + 1 + 4 * dsmLegsBefore legs i) * entry v (1 + i))
        :: tofPost :: after ∧
      before.length = i + dsmLegsBefore legs i ∧
      entry v (n + 1 + 4 * dsmLegsBefore legs i) * entry v (1 + i) + tofPost
        = entry v (1 + i) := by
  have hout := resolveTimeOfFlight_eq_reference n legs v out hres
  obtain ⟨rest, hrest⟩ := referenceTimeOfFlight_extends n legs v (i + 1) (n - 1).toNat
    (by omega)
  refine ⟨referenceTimeOfFlight n legs v i,
    (1 - entry v (n + 1 + 4 * dsmLegsBefore legs i)) * entry v (1 + i), rest, ?_,
    referenceTimeOfFlight_length n legs v i, by ring⟩
  rw [hout, hrest, referenceTimeOfFlight_succ]
  simp [referenceLegTimes, hdsm]

/-- Witness of C2: the DSM leg of a three-leg trajectory. -/
theorem dsm_leg_emits_consecutive_split_witness :
    ∃ before tofPost after,
      ([10, 5, 15] : List ℚ) = before ++
        (entry [0, 10, 20, 1, 1 / 4, 0, 0, 0] (3 + 1 + 4 * dsmLegsBefore
          [TransferLegType.mga_Departure, TransferLegType.mga_SwingbyWithDSM,
            TransferLegType.mga_Swingby] 1) * entry [0, 10, 20, 1, 1 / 4, 0, 0, 0] (1 + 1))
        :: tofPost :: after ∧
      before.length = 1 + dsmLegsBefore
          [TransferLegType.mga_Departure, TransferLegType.mga_SwingbyWithDSM,
            TransferLegType.mga_Swingby] 1 ∧
      entry [0, 10, 20, 1, 1 / 4, 0, 0, 0] (3 + 1 + 4 * dsmLegsBefore
          [TransferLegType.mga_Departure, TransferLegType.mga_SwingbyWithDSM,
            TransferLegType.mga_Swingby] 1) * entry [0, 10, 20, 1, 1 / 4, 0, 0, 0] (1 + 1)
        + tofPost = entry [0, 10, 20, 1, 1 / 4, 0, 0, 0] (1 + 1) :=
  dsm_leg_emits_consecutive_split 3
    [TransferLegType.mga_Departure, TransferLegType.mga_SwingbyWithDSM,
      TransferLegType.mga_Swingby] [0, 10, 20, 1, 1 / 4, 0, 0, 0] [10, 5, 15]
    (by
      simp [resolveTimeOfFlight, timeOfFlightLoop, forLoop, timeOfFlightStep, index?,
        isDepartureOrSwingby, TimeOfFlightState.initial]
      norm_num)
    1 (by decide) (by decide)

/-- Counterexample to C3: with `numberOfLegs = 1` the loop `i < numberOfLegs - 1` never
runs, so the resolver emits nothing for the single DSM leg. -/
theorem single_dsm_leg_emits_nothing :
    resolveTimeOfFlight 1 [TransferLegType.mga_SwingbyWithDSM] [0, 100, 3 / 10, 0, 0, 0]
      = some [] ∧
    resolveTimeOfFlight 1 [TransferLegType.mga_SwingbyWithDSM] [0, 100, 3 / 10, 0, 0, 0]
      ≠ some [30, 70] := by
  have h : resolveTimeOfFlight 1 [TransferLegType.mga_SwingbyWithDSM]
      [0, 100, 3 / 10, 0, 0, 0] = some [] := rfl
  exact ⟨h, by rw [h]; simp⟩

/-- C3 as amended: the resolver emits nothing when `numberOfLegs = 1`; a DSM leg with split
fraction `0.3` and raw duration `100` that is followed by one more leg
(`numberOfLegs = 2`, parameter vector `[t0, 100, tof1, 0.3, ...]`) makes it emit exactly
`[30, 70]`. -/
theorem dsm_leg_before_last_emits_30_70 (t0 tof1 : ℚ) (rest : List ℚ)
    (lastLeg : TransferLegType) :
    resolveTimeOfFlight 1 [TransferLegType.mga_SwingbyWithDSM] (t0 :: 100 :: 3 / 10 :: rest)
      = some [] ∧
    resolveTimeOfFlight 2 [TransferLegType.mga_SwingbyWithDSM, lastLeg]
      (t0 :: 100 :: tof1 :: 3 / 10 :: rest) = some [30, 70] := by
  constructor
  · rfl
  · simp [resolveTimeOfFlight, timeOfFlightLoop, forLoop, timeOfFlightStep, index?,
      isDepartureOrSwingby, TimeOfFlightState.initial]
    norm_num

/-- C4: when no leg carries a DSM, `numberOfLegs = n ≥ 1` and the parameter vector has
length `n + 1`, the resolver emits exactly the `n - 1` values `v[1], ..., v[n-1]`; for two
legs and `v = [t0, tof0, tof1]` it emits `[tof0]`. -/
theorem no_dsm_emits_times_of_flight (n : Int) (legs : List TransferLegType) (v : List ℚ)
    (hn : 1 ≤ n) (hlen : (legs.length : Int) = n)
    (hno : ∀ i, carriesDSM legs i = false) (hv : (v.length : Int) = n + 1) :
    resolveTimeOfFlight n legs v = some ((v.drop 1).take (n - 1).toNat) ∧
    (((v.drop 1).take (n - 1).toNat).length : Int) = n - 1 ∧
    (∀ k : Nat, (k : Int) < n - 1 →
      ((v.drop 1).take (n - 1).toNat)[k]? = v[k + 1]?) ∧
    (∀ t0 tof0 tof1 : ℚ, n = 2 → v = [t0, tof0, tof1] →
      resolveTimeOfFlight n legs v = some [tof0]) := by
  have hreads : ∀ i : Nat, (i : Int) < n - 1 → readsInRange n legs v i := by
    intro i hi
    exact ⟨by omega, fun hd => by simp [hno i] at hd⟩
  have hmain : resolveTimeOfFlight n legs v = some ((v.drop 1).take (n - 1).toNat) := by
    unfold resolveTimeOfFlight
    rw [timeOfFlightLoop_eq n legs v _ (by omega) (fun k hk => hreads k (by omega))]
    simp only [Option.map_some']
    rw [referenceTimeOfFlight_no_dsm n legs v hno _ (by omega)]
  refine ⟨hmain, ?_, ?_, ?_⟩
  · rw [List.length_take, List.length_drop]
    omega
  · intro k hk
    rw [List.getElem?_take_of_lt (by omega), List.getElem?_drop, add_comm]
  · intro t0 tof0 tof1 h2 hvv
    rw [hmain]
    subst h2 hvv
    rfl

/-- Witness of C4: two legs without DSM and the vector `[0, 10, 20]`. -/
theorem no_dsm_emits_times_of_flight_witness :
    resolveTimeOfFlight 2 [TransferLegType.mga_Departure, TransferLegType.mga_Swingby]
      [0, 10, 20] = some [10] :=
  (no_dsm_emits_times_of_flight 2 [TransferLegType.mga_Departure, TransferLegType.mga_Swingby]
    [0, 10, 20] (by decide) (by decide)
    (by
      intro i
      match i with
      | 0 => rfl
      | 1 => rfl
      | k + 2 => rfl)
    (by decide)).2.2.2 0 10 20 rfl rfl

/-- C9: for `numberOfLegs = n ≥ 1` and a vector length `L ≥ 0`, the leg count computed at
line 64 (real quotient plus `n`, truncated toward zero) is `floor((L - 1 - n) / 4) + n`,
and line 176 computes the same value. -/
theorem numberLegsIncludingDSM_eq_floor (n L : Int) (hn : 1 ≤ n) (hL : 0 ≤ L) :
    fullPropagationMGA_numberLegsIncludingDSM L n
      = ⌊(((L - 1 - n : Int) : ℚ) / 4)⌋ + n ∧
    getDifference_numberLegsIncludingDSM L n
      = fullPropagationMGA_numberLegsIncludingDSM L n := by
  refine ⟨?_, rfl⟩
  rw [numberLegsIncludingDSM_eq L n (by omega)]
  have := Rat.floor_intCast_div_natCast (L - 1 - n) 4
  simp only [Nat.cast_ofNat] at this
  rw [this]

/-- Witness of C9: one leg and the empty vector, where the quotient is negative. -/
theorem numberLegsIncludingDSM_eq_floor_witness :
    fullPropagationMGA_numberLegsIncludingDSM 0 1 = ⌊((((0 : Int) - 1 - 1 : Int) : ℚ) / 4)⌋ + 1 ∧
    getDifference_numberLegsIncludingDSM 0 1 = fullPropagationMGA_numberLegsIncludingDSM 0 1 :=
  numberLegsIncludingDSM_eq_floor 1 0 (by decide) (by decide)

/-! ## Lemmas on `std::map` -/

theorem lookupEntry_insertEntry {κ α : Type} [LinearOrder κ] (k k' : κ) (v : α) :
    ∀ l : List (κ × α),
      lookupEntry k' (insertEntry k v l) = if k' = k then some v else lookupEntry k' l := by
  intro l
  induction l with
  | nil => simp [insertEntry, lookupEntry]
  | cons hd tl ih =>
    obtain ⟨k0, v0⟩ := hd
    unfold insertEntry
    by_cases h1 : k < k0
    · rw [if_pos h1]
      by_cases hk : k' = k <;> simp [lookupEntry, hk]
    · rw [if_neg h1]
      by_cases h2 : k = k0
      · rw [if_pos h2]
        subst h2
        by_cases hk : k' = k <;> simp [lookupEntry, hk]
      · rw [if_neg h2]
        by_cases hk0 : k' = k0
        · have hne : ¬ k' = k := fun e => h2 (e.symm.trans hk0)
          subst hk0
          simp [lookupEntry, hne]
        · simp [lookupEntry, hk0, ih]

theorem insertEntry_of_keys_lt {κ α : Type} [LinearOrder κ] (k : κ) (v : α) :
    ∀ l : List (κ × α), (∀ x ∈ l.map Prod.fst, x < k) → insertEntry k v l = l ++ [(k, v)] := by
  intro l
  induction l with
  | nil => intro _; rfl
  | cons hd tl ih =>
    obtain ⟨k0, v0⟩ := hd
    intro h
    have h0 : k0 < k := h k0 (by simp)
    unfold insertEntry
    rw [if_neg (not_lt.mpr (le_of_lt h0)), if_neg (ne_of_gt h0)]
    rw [ih (fun x hx => h x (by simp at hx ⊢; exact Or.inr hx))]
    rfl

theorem StdMap.find?_assign {κ α : Type} [LinearOrder κ] (m : StdMap κ α) (k k' : κ) (v : α) :
    (m.assign k v).find? k' = if k' = k then some v else m.find? k' :=
  lookupEntry_insertEntry k k' v m.entries

theorem StdMap.find?_empty {κ α : Type} [LinearOrder κ] (k : κ) :
    (StdMap.empty : StdMap κ α).find? k = none := rfl

theorem lookupEntry_head {κ α : Type} [LinearOrder κ] (k : κ) (v : α) (rest : List (κ × α)) :
    lookupEntry k ((k, v) :: rest) = some v := by
  simp [lookupEntry]

theorem lookupEntry_getLast {κ α : Type} [LinearOrder κ] :
    ∀ (l : List (κ × α)) (k : κ) (v : α), (l.map Prod.fst).Sorted (· < ·) →
      l.getLast? = some (k, v) → lookupEntry k l = some v ∧ ∀ x ∈ l.map Prod.fst, x ≤ k := by
  intro l
  induction l with
  | nil => intro k v _ h; simp at h
  | cons hd tl ih =>
    obtain ⟨k0, v0⟩ := hd
    intro k v hs h
    simp only [List.map_cons, List.sorted_cons] at hs
    cases tl with
    | nil =>
      simp at h
      obtain ⟨h1, h2⟩ := h
      subst h1 h2
      simp [lookupEntry]
    | cons hd2 tl2 =>
      have h' : (hd2 :: tl2).getLast? = some (k, v) := by
        rw [List.getLast?_cons_cons] at h; exact h
      obtain ⟨hl, hle⟩ := ih k v hs.2 h'
      have hk0 : k0 < k := by
        have hmem : k ∈ (hd2 :: tl2).map Prod.fst := by
          have := List.mem_of_getLast?_eq_some h'
          exact List.mem_map.mpr ⟨(k, v), this, rfl⟩
        exact hs.1 k hmem
      refine ⟨?_, ?_⟩
      · unfold lookupEntry
        rw [if_neg (ne_of_gt hk0)]
        exact hl
      · intro x hx
        simp only [List.map_cons, List.mem_cons] at hx
        rcases hx with hx | hx
        · exact hx ▸ le_of_lt hk0
        · exact hle x (by simpa using hx)

/-- The entry `begin()` points to holds the least key and its value. -/
theorem StdMap.beginSecond?_spec {κ α : Type} [LinearOrder κ] (m : StdMap κ α)
    (h : m.entries ≠ []) :
    ∃ k v, m.beginSecond? = some v ∧ m.find? k = some v ∧ k ∈ m.keys ∧ ∀ x ∈ m.keys, k ≤ x := by
  obtain ⟨entries, sorted⟩ := m
  cases entries with
  | nil => exact absurd rfl h
  | cons hd tl =>
    obtain ⟨k, v⟩ := hd
    refine ⟨k, v, rfl, lookupEntry_head k v tl, by simp [StdMap.keys], ?_⟩
    intro x hx
    simp only [List.map_cons, List.sorted_cons] at sorted
    simp only [StdMap.keys, List.map_cons, List.mem_cons] at hx
    rcases hx with hx | hx
    · exact le_of_eq hx.symm
    · exact le_of_lt (sorted.1 x hx)

/-- The entry `rbegin()` points to holds the greatest key and its value. -/
theorem StdMap.rbeginSecond?_spec {κ α : Type} [LinearOrder κ] (m : StdMap κ α)
    (h : m.entries ≠ []) :
    ∃ k v, m.rbeginSecond? = some v ∧ m.find? k = some v ∧ k ∈ m.keys ∧ ∀ x ∈ m.keys, x ≤ k := by
  obtain ⟨entries, sorted⟩ := m
  cases hlast : entries.getLast? with
  | none => exact absurd (List.getLast?_eq_none_iff.mp hlast) h
  | some kv =>
    obtain ⟨k, v⟩ := kv
    obtain ⟨hl, hle⟩ := lookupEntry_getLast entries k v sorted hlast
    refine ⟨k, v, by simp [StdMap.rbeginSecond?, hlast], hl, ?_, hle⟩
    exact List.mem_map.mpr ⟨(k, v), List.mem_of_getLast?_eq_some hlast, rfl⟩

/-! ## Lemmas on loops that may fault -/

theorem forLoop_except_succ_ok {E S : Type} (body : Nat → S → Except E S) (n : Nat)
    (s s' : S) (h : forLoop body (n + 1) s = .ok s') :
    ∃ sn, forLoop body n s = .ok sn ∧ body n sn = .ok s' := by
  rw [forLoop_succ] at h
  cases hn : forLoop body n s with
  | error e => rw [hn] at h; exact Except.noConfusion h
  | ok sn => rw [hn] at h; exact ⟨sn, rfl, h⟩

theorem forLoop_except_ok_earlier {E S : Type} (body : Nat → S → Except E S) (s : S) :
    ∀ (n : Nat) (s' : S), forLoop body n s = .ok s' →
      ∀ k, k ≤ n → ∃ sk, forLoop body k s = .ok sk := by
  intro n
  induction n with
  | zero =>
    intro s' h k hk
    have : k = 0 := by omega
    subst this
    exact ⟨s', h⟩
  | succ n ih =>
    intro s' h k hk
    by_cases hkn : k = n + 1
    · subst hkn; exact ⟨s', h⟩
    · obtain ⟨sn, hsn, _⟩ := forLoop_except_succ_ok body n s s' h
      exact ih sn hsn k (by omega)

theorem forLoop_except_error_mono {E S : Type} (body : Nat → S → Except E S) (s : S)
    (k : Nat) (e : E) (h : forLoop body k s = .error e) :
    ∀ n, k ≤ n → forLoop body n s = .error e := by
  intro n
  induction n with
  | zero =>
    intro hk
    have : k = 0 := by omega
    subst this
    exact h
  | succ n ih =>
    intro hk
    by_cases hkn : k = n + 1
    · subst hkn; exact h
    · rw [forLoop_succ, ih (by omega)]
      rfl

theorem forLoop_option_succ_some {S : Type} (body : Nat → S → Option S) (n : Nat)
    (s s' : S) (h : forLoop body (n + 1) s = some s') :
    ∃ sn, forLoop body n s = some sn ∧ body n sn = some s' := by
  rw [forLoop_succ] at h
  cases hn : forLoop body n s with
  | none => rw [hn] at h; exact Option.noConfusion h
  | some sn => rw [hn] at h; exact ⟨sn, rfl, h⟩

/-! ## Lemmas on the propagation loop -/

theorem propagationCall_eq_some {T : ExternalTypes} (inp : Inputs T)
    (positionVector : List Vector3d) (timeOfFlightVector : List ℚ) (i : Nat)
    (c : PropagationCall T) (h : propagationCall inp positionVector timeOfFlightVector i = some c) :
    index? positionVector i = some c.cartesianPositionAtDeparture ∧
    index? positionVector (i + 1) = some c.cartesianPositionAtArrival ∧
    index? timeOfFlightVector i = some c.timeOfFlight ∧
    c.initialTime = 0 ∧
    (∃ body0 body1, index? inp.bodiesAndManoeuvresOrder i = some body0 ∧
      index? inp.bodiesAndManoeuvresOrder (1 + i) = some body1 ∧
      c.departureAndArrivalBodies = [body0, body1]) ∧
    c.accelerationMap = inp.accelerationMap ∧ c.bodyToPropagate = inp.bodyToPropagate ∧
    c.centralBody = inp.centralBody ∧ c.integratorSettings = inp.integratorSettings ∧
    c.flag1 = false ∧ c.flag2 = false := by
  unfold propagationCall at h
  cases h1 : index? positionVector (i : Int) with
  | none => simp [h1] at h
  | some dep =>
    cases h2 : index? positionVector ((i : Int) + 1) with
    | none => simp [h1, h2] at h
    | some arr =>
      cases h3 : index? inp.bodiesAndManoeuvresOrder (i : Int) with
      | none => simp [h1, h2, h3] at h
      | some b0 =>
        cases h4 : index? inp.bodiesAndManoeuvresOrder (1 + (i : Int)) with
        | none => simp [h1, h2, h3, h4] at h
        | some b1 =>
          cases h5 : index? timeOfFlightVector (i : Int) with
          | none => simp [h1, h2, h3, h4, h5] at h
          | some tof =>
            simp [h1, h2, h3, h4, h5] at h
            subst h
            exact ⟨rfl, rfl, rfl, rfl, ⟨b0, b1, rfl, rfl, rfl⟩, rfl, rfl, rfl, rfl, rfl, rfl⟩

theorem propagationStep_eq_ok {T : ExternalTypes} (env : Collaborators T) (inp : Inputs T)
    (positionVector : List Vector3d) (timeOfFlightVector : List ℚ) (i : Nat) (st st' : State T)
    (h : propagationStep env inp positionVector timeOfFlightVector i st = .ok st') :
    ∃ c lambert full bodyMap,
      propagationCall inp positionVector timeOfFlightVector i = some c ∧
      env.propagateLambertTargeterAndFullProblem st.bodyMap c = (.ok (lambert, full), bodyMap) ∧
      st' = { bodyMap := bodyMap
              calls := st.calls ++ [c]
              lambertTargeterResultForEachLeg :=
                st.lambertTargeterResultForEachLeg.assign i lambert
              fullProblemResultForEachLeg := st.fullProblemResultForEachLeg.assign i full } := by
  unfold propagationStep at h
  cases hc : propagationCall inp positionVector timeOfFlightVector i with
  | none => simp [hc] at h
  | some c =>
    simp only [hc] at h
    cases hp : env.propagateLambertTargeterAndFullProblem st.bodyMap c with
    | mk result bodyMap =>
      cases result with
      | error e => simp [hp] at h
      | ok histories =>
        obtain ⟨lambert, full⟩ := histories
        simp only [hp] at h
        injection h with h
        exact ⟨c, lambert, full, bodyMap, rfl, hp, h.symm⟩

theorem propagationStep_of_throw {T : ExternalTypes} (env : Collaborators T) (inp : Inputs T)
    (positionVector : List Vector3d) (timeOfFlightVector : List ℚ) (i : Nat) (st : State T)
    (c : PropagationCall T) (e : T.Exception) (bodyMap : T.NamedBodyMap)
    (hc : propagationCall inp positionVector timeOfFlightVector i = some c)
    (hp : env.propagateLambertTargeterAndFullProblem st.bodyMap c = (.error e, bodyMap)) :
    propagationStep env inp positionVector timeOfFlightVector i st =
      .error (.thrown e, { st with bodyMap := bodyMap, calls := st.calls ++ [c] }) := by
  unfold propagationStep
  simp only [hc, hp]

theorem propagationStep_of_ok {T : ExternalTypes} (env : Collaborators T) (inp : Inputs T)
    (positionVector : List Vector3d) (timeOfFlightVector : List ℚ) (i : Nat) (st : State T)
    (c : PropagationCall T) (lambert full : StateHistory) (bodyMap : T.NamedBodyMap)
    (hc : propagationCall inp positionVector timeOfFlightVector i = some c)
    (hp : env.propagateLambertTargeterAndFullProblem st.bodyMap c
      = (.ok (lambert, full), bodyMap)) :
    propagationStep env inp positionVector timeOfFlightVector i st =
      .ok { bodyMap := bodyMap
            calls := st.calls ++ [c]
            lambertTargeterResultForEachLeg :=
              st.lambertTargeterResultForEachLeg.assign i lambert
            fullProblemResultForEachLeg := st.fullProblemResultForEachLeg.assign i full } := by
  unfold propagationStep
  simp only [hc, hp]

theorem propagationStep_thrown_calls {T : ExternalTypes} (env : Collaborators T)
    (inp : Inputs T) (positionVector : List Vector3d) (timeOfFlightVector : List ℚ) (i : Nat)
    (st st' : State T) (e : T.Exception)
    (h : propagationStep env inp positionVector timeOfFlightVector i st
      = .error (.thrown e, st')) : st'.calls ≠ [] := by
  unfold propagationStep at h
  cases hc : propagationCall inp positionVector timeOfFlightVector i with
  | none => simp [hc] at h
  | some c =>
    simp only [hc] at h
    cases hp : env.propagateLambertTargeterAndFullProblem st.bodyMap c with
    | mk result bodyMap =>
      cases result with
      | ok histories => simp [hp] at h
      | error e' =>
        simp only [hp] at h
        injection h with h
        injection h with h1 h2
        subst h2
        simp

theorem propagationLoop_thrown_calls {T : ExternalTypes} (env : Collaborators T)
    (inp : Inputs T) (positionVector : List Vector3d) (timeOfFlightVector : List ℚ)
    (st0 : State T) (e : T.Exception) :
    ∀ (j : Nat) (st : State T),
      propagationLoop env inp positionVector timeOfFlightVector j st0
        = .error (.thrown e, st) → st.calls ≠ [] := by
  intro j
  induction j with
  | zero => intro st h; exact Except.noConfusion h
  | succ j ih =>
    intro st h
    unfold propagationLoop at h ih
    rw [forLoop_succ] at h
    cases hj : forLoop (propagationStep env inp positionVector timeOfFlightVector) j st0 with
    | error fault =>
      rw [hj] at h
      exact ih st (by rw [hj]; exact h)
    | ok sj =>
      rw [hj] at h
      exact propagationStep_thrown_calls env inp positionVector timeOfFlightVector j sj st e h

/-- The invariant of the propagation loop: after `j` iterations that did not fault, the log
has grown by the calls of indices `0 .. j-1` in order, the histories returned by call `i` are
stored under key `i` in both maps, and no other key has changed. -/
theorem propagationLoop_eq_ok {T : ExternalTypes} (env : Collaborators T) (inp : Inputs T)
    (positionVector : List Vector3d) (timeOfFlightVector : List ℚ) (st0 : State T) :
    ∀ (j : Nat) (st : State T),
      propagationLoop env inp positionVector timeOfFlightVector j st0 = .ok st →
      (∃ cs, st.calls = st0.calls ++ cs ∧
        cs.map some = (List.range j).map
          (propagationCall inp positionVector timeOfFlightVector)) ∧
      (∀ i, i < j → ∃ si c lambert full bodyMap,
        propagationLoop env inp positionVector timeOfFlightVector i st0 = .ok si ∧
        propagationCall inp positionVector timeOfFlightVector i = some c ∧
        env.propagateLambertTargeterAndFullProblem si.bodyMap c
          = (.ok (lambert, full), bodyMap) ∧
        st.lambertTargeterResultForEachLeg.find? i = some lambert ∧
        st.fullProblemResultForEachLeg.find? i = some full) ∧
      (∀ k : Int, (k < 0 ∨ (j : Int) ≤ k) →
        st.lambertTargeterResultForEachLeg.find? k
          = st0.lambertTargeterResultForEachLeg.find? k ∧
        st.fullProblemResultForEachLeg.find? k = st0.fullProblemResultForEachLeg.find? k) := by
  intro j
  induction j with
  | zero =>
    intro st h
    have hst : st = st0 := by
      unfold propagationLoop at h
      rw [forLoop_zero] at h
      injection h with h
      exact h.symm
    subst hst
    exact ⟨⟨[], by simp⟩, fun i hi => absurd hi (Nat.not_lt_zero i), fun k _ => ⟨rfl, rfl⟩⟩
  | succ j ih =>
    intro st h
    obtain ⟨sj, hsj, hstep⟩ := forLoop_except_succ_ok _ j st0 st h
    obtain ⟨⟨cs, hcs, hmap⟩, hstored, hother⟩ := ih sj hsj
    obtain ⟨c, lambert, full, bodyMap, hc, hp, hst⟩ :=
      propagationStep_eq_ok env inp positionVector timeOfFlightVector j sj st hstep
    subst hst
    refine ⟨⟨cs ++ [c], ?_, ?_⟩, ?_, ?_⟩
    · simp [hcs]
    · simp [List.range_succ, hmap, hc]
    · intro i hi
      by_cases hij : i = j
      · subst hij
        exact ⟨sj, c, lambert, full, bodyMap, hsj, hc, hp,
          by simp [StdMap.find?_assign], by simp [StdMap.find?_assign]⟩
      · obtain ⟨si, ci, li, fi, bi, h1, h2, h3, h4, h5⟩ := hstored i (by omega)
        have hne : ¬ ((i : Int) = (j : Int)) := by omega
        exact ⟨si, ci, li, fi, bi, h1, h2, h3,
          by simp [StdMap.find?_assign, hne, h4], by simp [StdMap.find?_assign, hne, h5]⟩
    · intro k hk
      have hne : ¬ (k = (j : Int)) := by omega
      obtain ⟨h1, h2⟩ := hother k (by omega)
      exact ⟨by simp [StdMap.find?_assign, hne, h1], by simp [StdMap.find?_assign, hne, h2]⟩

theorem fullPropagationMGA_eq_ok {T : ExternalTypes} (env : Collaborators T) (inp : Inputs T)
    (st0 st : State T) (h : fullPropagationMGA env inp st0 = .ok st) :
    ∃ arguments positionVector bodyMap timeOfFlightVector,
      trajectoryArguments inp = some arguments ∧
      env.trajectoryManeuvers st0.bodyMap arguments = (.ok positionVector, bodyMap) ∧
      resolveTimeOfFlight inp.numberOfLegs inp.legTypeVector inp.trajectoryVariableVector
        = some timeOfFlightVector ∧
      propagationLoop env inp positionVector timeOfFlightVector
        (fullPropagationMGA_numberLegsIncludingDSM inp.trajectoryVariableVector.length
          inp.numberOfLegs - 1).toNat { st0 with bodyMap := bodyMap } = .ok st := by
  unfold fullPropagationMGA at h
  cases ha : trajectoryArguments inp with
  | none => simp [ha] at h
  | some arguments =>
    simp only [ha] at h
    cases ht : env.trajectoryManeuvers st0.bodyMap arguments with
    | mk result bodyMap =>
      cases result with
      | error e => simp [ht] at h
      | ok positionVector =>
        simp only [ht] at h
        cases hr : resolveTimeOfFlight inp.numberOfLegs inp.legTypeVector
            inp.trajectoryVariableVector with
        | none => simp [hr] at h
        | some timeOfFlightVector =>
          simp only [hr] at h
          exact ⟨arguments, positionVector, bodyMap, timeOfFlightVector, rfl, ht, rfl, h⟩

theorem fullPropagationMGA_of_loop {T : ExternalTypes} (env : Collaborators T) (inp : Inputs T)
    (st0 : State T) (arguments : TrajectoryArguments) (positionVector : List Vector3d)
    (bodyMap : T.NamedBodyMap) (timeOfFlightVector : List ℚ)
    (ha : trajectoryArguments inp = some arguments)
    (ht : env.trajectoryManeuvers st0.bodyMap arguments = (.ok positionVector, bodyMap))
    (hr : resolveTimeOfFlight inp.numberOfLegs inp.legTypeVector inp.trajectoryVariableVector
      = some timeOfFlightVector) :
    fullPropagationMGA env inp st0 =
      propagationLoop env inp positionVector timeOfFlightVector
        (fullPropagationMGA_numberLegsIncludingDSM inp.trajectoryVariableVector.length
          inp.numberOfLegs - 1).toNat { st0 with bodyMap := bodyMap } := by
  unfold fullPropagationMGA
  simp only [ha, ht, hr]

theorem propagationCall_isSome {T : ExternalTypes} (inp : Inputs T)
    (positionVector : List Vector3d) (timeOfFlightVector : List ℚ) (i : Nat)
    (hp : i + 1 < positionVector.length) (hb : i + 1 < inp.bodiesAndManoeuvresOrder.length)
    (ht : i < timeOfFlightVector.length) :
    ∃ c, propagationCall inp positionVector timeOfFlightVector i = some c := by
  have h1 := index?_nat_of_lt (v := positionVector) (i := i) (by omega)
  have h2 := index?_nat_of_lt (v := positionVector) (i := i + 1) hp
  have h3 := index?_nat_of_lt (v := inp.bodiesAndManoeuvresOrder) (i := i) (by omega)
  have h4 := index?_nat_of_lt (v := inp.bodiesAndManoeuvresOrder) (i := i + 1) hb
  have h5 := index?_nat_of_lt (v := timeOfFlightVector) (i := i) ht
  have e : (1 + (i : Int)) = ((i + 1 : Nat) : Int) := by omega
  push_cast at h2 h4
  unfold propagationCall
  rw [h1, h2, h3, e]
  push_cast
  rw [h4, h5]
  exact ⟨_, rfl⟩

theorem propagationLoop_total {T : ExternalTypes} (env : Collaborators T) (inp : Inputs T)
    (positionVector : List Vector3d) (timeOfFlightVector : List ℚ) (st0 : State T)
    (hsucc : ∀ bodyMap c, ∃ histories bodyMap',
      env.propagateLambertTargeterAndFullProblem bodyMap c = (.ok histories, bodyMap')) :
    ∀ j : Nat,
      (∀ i, i < j → ∃ c, propagationCall inp positionVector timeOfFlightVector i = some c) →
      ∃ st, propagationLoop env inp positionVector timeOfFlightVector j st0 = .ok st := by
  intro j
  induction j with
  | zero => intro _; exact ⟨st0, rfl⟩
  | succ j ih =>
    intro hcalls
    obtain ⟨sj, hsj⟩ := ih (fun i hi => hcalls i (by omega))
    obtain ⟨c, hc⟩ := hcalls j (by omega)
    obtain ⟨⟨lambert, full⟩, bodyMap, hp⟩ := hsucc sj.bodyMap c
    have hstep := propagationStep_of_ok env inp positionVector timeOfFlightVector j sj c
      lambert full bodyMap hc hp
    unfold propagationLoop at hsj ⊢
    exact ⟨_, by rw [forLoop_succ, hsj]; exact hstep⟩

/-! ## Lemmas on the differencing loop -/

theorem StdMap.subscript_of_find? {κ α : Type} [LinearOrder κ] [Inhabited α] (m : StdMap κ α)
    (k : κ) (v : α) (h : m.find? k = some v) : m.subscript k = v := by
  simp [StdMap.subscript, h]

theorem endpointDifference_eq_some (lambert full : StateHistory) (d : Vector6d × Vector6d)
    (h : endpointDifference lambert full = some d) :
    lambert.entries ≠ [] ∧ full.entries ≠ [] := by
  unfold endpointDifference at h
  constructor
  · intro he
    simp [StdMap.beginSecond?, he] at h
  · intro he
    cases h1 : lambert.beginSecond? with
    | none => simp [h1] at h
    | some a => simp [h1, StdMap.beginSecond?, he] at h

/-- The pair computed at lines 196-204: the analytic state at the least epoch of the
analytic history minus the numerical state at the least epoch of the numerical history, and
the same at the greatest epochs. -/
theorem endpointDifference_spec (lambert full : StateHistory)
    (hl : lambert.entries ≠ []) (hf : full.entries ≠ []) :
    ∃ tA0 a0 tA1 a1 tN0 n0 tN1 n1,
      (tA0 ∈ lambert.keys ∧ (∀ t ∈ lambert.keys, tA0 ≤ t) ∧ lambert.find? tA0 = some a0) ∧
      (tA1 ∈ lambert.keys ∧ (∀ t ∈ lambert.keys, t ≤ tA1) ∧ lambert.find? tA1 = some a1) ∧
      (tN0 ∈ full.keys ∧ (∀ t ∈ full.keys, tN0 ≤ t) ∧ full.find? tN0 = some n0) ∧
      (tN1 ∈ full.keys ∧ (∀ t ∈ full.keys, t ≤ tN1) ∧ full.find? tN1 = some n1) ∧
      endpointDifference lambert full = some (a0 - n0, a1 - n1) := by
  obtain ⟨tA0, a0, hb1, hf1, hm1, hle1⟩ := StdMap.beginSecond?_spec lambert hl
  obtain ⟨tA1, a1, hb2, hf2, hm2, hle2⟩ := StdMap.rbeginSecond?_spec lambert hl
  obtain ⟨tN0, n0, hb3, hf3, hm3, hle3⟩ := StdMap.beginSecond?_spec full hf
  obtain ⟨tN1, n1, hb4, hf4, hm4, hle4⟩ := StdMap.rbeginSecond?_spec full hf
  refine ⟨tA0, a0, tA1, a1, tN0, n0, tN1, n1, ⟨hm1, hle1, hf1⟩, ⟨hm2, hle2, hf2⟩,
    ⟨hm3, hle3, hf3⟩, ⟨hm4, hle4, hf4⟩, ?_⟩
  simp [endpointDifference, hb1, hb2, hb3, hb4]

theorem differenceStep_eq_some (lambertMap fullMap : HistoryMap) (i : Nat)
    (res res' : ResidualMap) (h : differenceStep lambertMap fullMap i res = some res') :
    ∃ d, endpointDifference (lambertMap.subscript i) (fullMap.subscript i) = some d ∧
      res' = res.assign i d := by
  unfold differenceStep at h
  cases hd : endpointDifference (lambertMap.subscript (i : Int)) (fullMap.subscript (i : Int)) with
  | none => simp [hd] at h
  | some d =>
    simp [hd] at h
    exact ⟨d, rfl, h.symm⟩

/-- The invariant of the differencing loop: after `j` iterations the result map has the keys
`0 .. j-1`, each holding the endpoint difference of the two histories found under it. -/
theorem differenceLoop_eq_some (lambertMap fullMap : HistoryMap) :
    ∀ (j : Nat) (res : ResidualMap), differenceLoop lambertMap fullMap j = some res →
      res.keys = (List.range j).map Int.ofNat ∧
      ∀ i, i < j → ∃ d,
        endpointDifference (lambertMap.subscript i) (fullMap.subscript i) = some d ∧
        res.find? i = some d := by
  intro j
  induction j with
  | zero =>
    intro res h
    have hres : res = StdMap.empty := by
      unfold differenceLoop at h
      rw [forLoop_zero] at h
      injection h with h
      exact h.symm
    subst hres
    exact ⟨rfl, fun i hi => absurd hi (Nat.not_lt_zero i)⟩
  | succ j ih =>
    intro res h
    obtain ⟨rj, hrj, hstep⟩ := forLoop_option_succ_some _ j _ res h
    obtain ⟨hkeys, hfind⟩ := ih rj hrj
    obtain ⟨d, hd, hres⟩ := differenceStep_eq_some lambertMap fullMap j rj res hstep
    subst hres
    constructor
    · have hlt : ∀ x ∈ rj.entries.map Prod.fst, x < (j : Int) := by
        intro x hx
        have hx' : x ∈ rj.keys := hx
        rw [hkeys] at hx'
        obtain ⟨a, ha, hax⟩ := List.mem_map.mp hx'
        have := List.mem_range.mp ha
        subst hax
        exact Int.ofNat_lt.mpr this
      have hk : rj.entries.map Prod.fst = (List.range j).map Int.ofNat := hkeys
      simp only [StdMap.keys, StdMap.assign]
      rw [insertEntry_of_keys_lt (j : Int) d rj.entries hlt, List.map_append, hk,
        List.range_succ, List.map_append]
      rfl
    · intro i hi
      by_cases hij : i = j
      · subst hij
        exact ⟨d, hd, by simp [StdMap.find?_assign]⟩
      · obtain ⟨di, hdi, hfi⟩ := hfind i (by omega)
        have hne : ¬ ((i : Int) = (j : Int)) := by omega
        exact ⟨di, hdi, by simp [StdMap.find?_assign, hne, hfi]⟩

theorem differenceLoop_total (lambertMap fullMap : HistoryMap) :
    ∀ j : Nat,
      (∀ i, i < j → (lambertMap.subscript (i : Int)).entries ≠ [] ∧
        (fullMap.subscript (i : Int)).entries ≠ []) →
      ∃ res, differenceLoop lambertMap fullMap j = some res := by
  intro j
  induction j with
  | zero => intro _; exact ⟨StdMap.empty, rfl⟩
  | succ j ih =>
    intro h
    obtain ⟨rj, hrj⟩ := ih (fun i hi => h i (by omega))
    obtain ⟨hl, hf⟩ := h j (by omega)
    obtain ⟨_, a0, _, a1, _, n0, _, n1, _, _, _, _, hd⟩ := endpointDifference_spec _ _ hl hf
    refine ⟨rj.assign j (a0 - n0, a1 - n1), ?_⟩
    unfold differenceLoop at hrj ⊢
    rw [forLoop_succ, hrj]
    simp [differenceStep, hd]

theorem getDifference_eq_ok {T : ExternalTypes} (env : Collaborators T) (inp : Inputs T)
    (bodyMap : T.NamedBodyMap) (res : ResidualMap) (st : State T)
    (h : getDifferenceFullPropagationWrtLambertTargeterMGA env inp bodyMap = .ok (res, st)) :
    fullPropagationMGA env inp (State.fresh bodyMap) = .ok st ∧
    differenceLoop st.lambertTargeterResultForEachLeg st.fullProblemResultForEachLeg
      (getDifference_numberLegsIncludingDSM inp.trajectoryVariableVector.length
        inp.numberOfLegs - 1).toNat = some res := by
  unfold getDifferenceFullPropagationWrtLambertTargeterMGA at h
  cases hf : fullPropagationMGA env inp (State.fresh bodyMap) with
  | error fault => simp [hf] at h
  | ok st' =>
    simp only [hf] at h
    cases hd : differenceLoop st'.lambertTargeterResultForEachLeg
        st'.fullProblemResultForEachLeg
        (getDifference_numberLegsIncludingDSM inp.trajectoryVariableVector.length
          inp.numberOfLegs - 1).toNat with
    | none => rw [hd] at h; cases h
    | some res' =>
      rw [hd] at h
      injection h with h
      injection h with h1 h2
      subst h1 h2
      exact ⟨rfl, hd⟩

theorem getDifference_of_ok {T : ExternalTypes} (env : Collaborators T) (inp : Inputs T)
    (bodyMap : T.NamedBodyMap) (res : ResidualMap) (st : State T)
    (hf : fullPropagationMGA env inp (State.fresh bodyMap) = .ok st)
    (hd : differenceLoop st.lambertTargeterResultForEachLeg st.fullProblemResultForEachLeg
      (getDifference_numberLegsIncludingDSM inp.trajectoryVariableVector.length
        inp.numberOfLegs - 1).toNat = some res) :
    getDifferenceFullPropagationWrtLambertTargeterMGA env inp bodyMap = .ok (res, st) := by
  unfold getDifferenceFullPropagationWrtLambertTargeterMGA
  simp only [hf, hd]

theorem getDifference_of_error {T : ExternalTypes} (env : Collaborators T) (inp : Inputs T)
    (bodyMap : T.NamedBodyMap) (fault : Fault T × State T)
    (hf : fullPropagationMGA env inp (State.fresh bodyMap) = .error fault) :
    getDifferenceFullPropagationWrtLambertTargeterMGA env inp bodyMap = .error fault := by
  unfold getDifferenceFullPropagationWrtLambertTargeterMGA
  simp only [hf]

/-! ## Runs of the two functions that return -/

theorem index?_natCast {α : Type} (v : List α) (i : Nat) : index? v (i : Int) = v[i]? := by
  simp [index?]

theorem index?_natCast_succ {α : Type} (v : List α) (i : Nat) :
    index? v ((i : Int) + 1) = v[i + 1]? := by
  have e : ((i : Int) + 1) = ((i + 1 : Nat) : Int) := by omega
  rw [e, index?_natCast]

theorem index?_one_add_natCast {α : Type} (v : List α) (i : Nat) :
    index? v (1 + (i : Int)) = v[i + 1]? := by
  rw [add_comm, index?_natCast_succ]

theorem getElem?_of_map_some {α : Type} (cs : List α) (f : Nat → Option α) (j : Nat)
    (h : cs.map some = (List.range j).map f) :
    cs.length = j ∧ ∀ i, i < j → cs[i]? = f i := by
  have hlen : cs.length = j := by
    have := congrArg List.length h
    simpa using this
  refine ⟨hlen, ?_⟩
  intro i hi
  have h1 := congrArg (fun l => l[i]?) h
  simp only [List.getElem?_map, List.getElem?_range hi, Option.map_some'] at h1
  cases hc : cs[i]? with
  | none => rw [hc] at h1; simp at h1
  | some c => rw [hc] at h1; simp at h1; rw [h1]

/-- What a returning run of `fullPropagationMGA` has done: one call per index
`0 .. numberLegsIncludingDSM - 2`, in order, each with the arguments of lines 122-145, and the
two histories of call `i` stored under key `i`. -/
theorem fullPropagationMGA_ok_spec {T : ExternalTypes} (env : Collaborators T) (inp : Inputs T)
    (st0 st : State T) (h : fullPropagationMGA env inp st0 = .ok st) :
    ∃ arguments positionVector bodyMap timeOfFlightVector cs,
      trajectoryArguments inp = some arguments ∧
      env.trajectoryManeuvers st0.bodyMap arguments = (.ok positionVector, bodyMap) ∧
      resolveTimeOfFlight inp.numberOfLegs inp.legTypeVector inp.trajectoryVariableVector
        = some timeOfFlightVector ∧
      st.calls = st0.calls ++ cs ∧
      cs.length = (fullPropagationMGA_numberLegsIncludingDSM
        inp.trajectoryVariableVector.length inp.numberOfLegs - 1).toNat ∧
      ∀ i : Nat, (i : Int) ≤ fullPropagationMGA_numberLegsIncludingDSM
          inp.trajectoryVariableVector.length inp.numberOfLegs - 2 →
        ∃ c si lambert full bodyMap',
          cs[i]? = some c ∧
          positionVector[i]? = some c.cartesianPositionAtDeparture ∧
          positionVector[i + 1]? = some c.cartesianPositionAtArrival ∧
          timeOfFlightVector[i]? = some c.timeOfFlight ∧
          c.initialTime = 0 ∧
          (∃ body0 body1, inp.bodiesAndManoeuvresOrder[i]? = some body0 ∧
            inp.bodiesAndManoeuvresOrder[i + 1]? = some body1 ∧
            c.departureAndArrivalBodies = [body0, body1]) ∧
          propagationLoop env inp positionVector timeOfFlightVector i
            { st0 with bodyMap := bodyMap } = .ok si ∧
          env.propagateLambertTargeterAndFullProblem si.bodyMap c
            = (.ok (lambert, full), bodyMap') ∧
          st.lambertTargeterResultForEachLeg.find? i = some lambert ∧
          st.fullProblemResultForEachLeg.find? i = some full := by
  obtain ⟨arguments, positionVector, bodyMap, timeOfFlightVector, ha, ht, hr, hloop⟩ :=
    fullPropagationMGA_eq_ok env inp st0 st h
  obtain ⟨⟨cs, hcs, hmap⟩, hstored, _⟩ :=
    propagationLoop_eq_ok env inp positionVector timeOfFlightVector _ _ st hloop
  obtain ⟨hlen, hget⟩ := getElem?_of_map_some cs _ _ hmap
  refine ⟨arguments, positionVector, bodyMap, timeOfFlightVector, cs, ha, ht, hr, hcs, hlen, ?_⟩
  intro i hi
  have hlt : i < (fullPropagationMGA_numberLegsIncludingDSM
      inp.trajectoryVariableVector.length inp.numberOfLegs - 1).toNat := by omega
  obtain ⟨si, c, lambert, full, bodyMap', h1, h2, h3, h4, h5⟩ := hstored i hlt
  obtain ⟨p1, p2, p3, p4, ⟨b0, b1, p5, p6, p7⟩, _⟩ :=
    propagationCall_eq_some inp positionVector timeOfFlightVector i c h2
  rw [index?_natCast] at p1 p3 p5
  rw [index?_natCast_succ] at p2
  rw [index?_one_add_natCast] at p6
  exact ⟨c, si, lambert, full, bodyMap', by rw [hget i hlt, h2], p1, p2, p3, p4,
    ⟨b0, b1, p5, p6, p7⟩, h1, h3, h4, h5⟩

/-- The run of `fullPropagationMGA` returns when its reads are in range and the collaborators
return. -/
theorem fullPropagationMGA_total {T : ExternalTypes} (env : Collaborators T) (inp : Inputs T)
    (st0 : State T) (arguments : TrajectoryArguments) (positionVector : List Vector3d)
    (bodyMap : T.NamedBodyMap) (timeOfFlightVector : List ℚ)
    (ha : trajectoryArguments inp = some arguments)
    (ht : env.trajectoryManeuvers st0.bodyMap arguments = (.ok positionVector, bodyMap))
    (hr : resolveTimeOfFlight inp.numberOfLegs inp.legTypeVector inp.trajectoryVariableVector
      = some timeOfFlightVector)
    (hpos : fullPropagationMGA_numberLegsIncludingDSM inp.trajectoryVariableVector.length
      inp.numberOfLegs ≤ positionVector.length)
    (hbodies : fullPropagationMGA_numberLegsIncludingDSM inp.trajectoryVariableVector.length
      inp.numberOfLegs ≤ inp.bodiesAndManoeuvresOrder.length)
    (htof : fullPropagationMGA_numberLegsIncludingDSM inp.trajectoryVariableVector.length
      inp.numberOfLegs - 1 ≤ timeOfFlightVector.length)
    (hsucc : ∀ bodyMap c, ∃ histories bodyMap',
      env.propagateLambertTargeterAndFullProblem bodyMap c = (.ok histories, bodyMap')) :
    ∃ st, fullPropagationMGA env inp st0 = .ok st := by
  rw [fullPropagationMGA_of_loop env inp st0 arguments positionVector bodyMap
    timeOfFlightVector ha ht hr]
  apply propagationLoop_total env inp positionVector timeOfFlightVector _ hsucc
  intro i hi
  exact propagationCall_isSome inp positionVector timeOfFlightVector i (by omega) (by omega)
    (by omega)

/-- What a returning run of `getDifferenceFullPropagationWrtLambertTargeterMGA` returns. -/
theorem getDifference_ok_spec {T : ExternalTypes} (env : Collaborators T) (inp : Inputs T)
    (bodyMap : T.NamedBodyMap) (res : ResidualMap) (st : State T)
    (h : getDifferenceFullPropagationWrtLambertTargeterMGA env inp bodyMap = .ok (res, st)) :
    fullPropagationMGA env inp (State.fresh bodyMap) = .ok st ∧
    res.keys = (List.range (getDifference_numberLegsIncludingDSM
      inp.trajectoryVariableVector.length inp.numberOfLegs - 1).toNat).map Int.ofNat ∧
    ∀ i : Nat, (i : Int) ≤ getDifference_numberLegsIncludingDSM
        inp.trajectoryVariableVector.length inp.numberOfLegs - 2 →
      ∃ lambert full d,
        st.lambertTargeterResultForEachLeg.find? i = some lambert ∧
        st.fullProblemResultForEachLeg.find? i = some full ∧
        endpointDifference lambert full = some d ∧
        res.find? i = some d := by
  obtain ⟨hf, hd⟩ := getDifference_eq_ok env inp bodyMap res st h
  obtain ⟨hkeys, hfind⟩ := differenceLoop_eq_some _ _ _ res hd
  refine ⟨hf, hkeys, ?_⟩
  intro i hi
  obtain ⟨_, _, _, _, _, _, _, _, _, _, hstored⟩ :=
    fullPropagationMGA_ok_spec env inp (State.fresh bodyMap) st hf
  obtain ⟨_, _, lambert, full, _, _, _, _, _, _, _, _, _, hl, hfu⟩ := hstored i hi
  obtain ⟨d, hd, hr⟩ := hfind i (by
    have : getDifference_numberLegsIncludingDSM inp.trajectoryVariableVector.length
      inp.numberOfLegs = fullPropagationMGA_numberLegsIncludingDSM
        inp.trajectoryVariableVector.length inp.numberOfLegs := rfl
    omega)
  rw [StdMap.subscript_of_find? _ _ _ hl, StdMap.subscript_of_find? _ _ _ hfu] at hd
  exact ⟨lambert, full, d, hl, hfu, hd, hr⟩

/-- The run of `getDifferenceFullPropagationWrtLambertTargeterMGA` returns when its reads
are in range and every collaborator call returns, the propagation with two non-empty
histories. -/
theorem getDifference_total {T : ExternalTypes} (env : Collaborators T) (inp : Inputs T)
    (bodyMap0 : T.NamedBodyMap) (arguments : TrajectoryArguments)
    (positionVector : List Vector3d) (bodyMap : T.NamedBodyMap) (timeOfFlightVector : List ℚ)
    (ha : trajectoryArguments inp = some arguments)
    (ht : env.trajectoryManeuvers bodyMap0 arguments = (.ok positionVector, bodyMap))
    (hr : resolveTimeOfFlight inp.numberOfLegs inp.legTypeVector inp.trajectoryVariableVector
      = some timeOfFlightVector)
    (hpos : getDifference_numberLegsIncludingDSM inp.trajectoryVariableVector.length
      inp.numberOfLegs ≤ positionVector.length)
    (hbodies : getDifference_numberLegsIncludingDSM inp.trajectoryVariableVector.length
      inp.numberOfLegs ≤ inp.bodiesAndManoeuvresOrder.length)
    (htof : getDifference_numberLegsIncludingDSM inp.trajectoryVariableVector.length
      inp.numberOfLegs - 1 ≤ timeOfFlightVector.length)
    (hsucc : ∀ bodyMap c, ∃ lambert full bodyMap',
      env.propagateLambertTargeterAndFullProblem bodyMap c = (.ok (lambert, full), bodyMap') ∧
      lambert.entries ≠ [] ∧ full.entries ≠ []) :
    ∃ res st, getDifferenceFullPropagationWrtLambertTargeterMGA env inp bodyMap0
      = .ok (res, st) := by
  have hsucc' : ∀ bodyMap c, ∃ histories bodyMap',
      env.propagateLambertTargeterAndFullProblem bodyMap c = (.ok histories, bodyMap') := by
    intro b c
    obtain ⟨l, f, b', hp, _⟩ := hsucc b c
    exact ⟨(l, f), b', hp⟩
  obtain ⟨st, hst⟩ := fullPropagationMGA_total env inp (State.fresh bodyMap0) arguments
    positionVector bodyMap timeOfFlightVector ha ht hr hpos hbodies htof hsucc'
  obtain ⟨_, _, _, _, _, _, _, _, _, _, hstored⟩ :=
    fullPropagationMGA_ok_spec env inp (State.fresh bodyMap0) st hst
  obtain ⟨res, hres⟩ := differenceLoop_total st.lambertTargeterResultForEachLeg
    st.fullProblemResultForEachLeg
    (getDifference_numberLegsIncludingDSM inp.trajectoryVariableVector.length
      inp.numberOfLegs - 1).toNat (by
    intro i hi
    have heq : getDifference_numberLegsIncludingDSM inp.trajectoryVariableVector.length
      inp.numberOfLegs = fullPropagationMGA_numberLegsIncludingDSM
        inp.trajectoryVariableVector.length inp.numberOfLegs := rfl
    obtain ⟨c, si, lambert, full, bodyMap', _, _, _, _, _, _, _, hp, hl, hfu⟩ :=
      hstored i (by omega)
    obtain ⟨l2, f2, b2, hp2, hne1, hne2⟩ := hsucc si.bodyMap c
    rw [hp] at hp2
    injection hp2 with hp2 _
    injection hp2 with hp2
    injection hp2 with e1 e2
    subst e1 e2
    rw [StdMap.subscript_of_find? _ _ _ hl, StdMap.subscript_of_find? _ _ _ hfu]
    exact ⟨hne1, hne2⟩)
  exact ⟨res, st, getDifference_of_ok env inp bodyMap0 res st hst hres⟩

theorem getDifference_thrown_before_call {T : ExternalTypes} (env : Collaborators T)
    (inp : Inputs T) (bodyMap : T.NamedBodyMap) (e : T.Exception) (st : State T) :
    (getDifferenceFullPropagationWrtLambertTargeterMGA env inp bodyMap
        = .error (.thrown e, st) ∧ st.calls = []) ↔
      ∃ arguments bodyMap', trajectoryArguments inp = some arguments ∧
        env.trajectoryManeuvers bodyMap arguments = (.error e, bodyMap') ∧
        st = { State.fresh bodyMap with bodyMap := bodyMap' } := by
  constructor
  · rintro ⟨h, hcalls⟩
    unfold getDifferenceFullPropagationWrtLambertTargeterMGA at h
    cases hf : fullPropagationMGA env inp (State.fresh bodyMap) with
    | ok st' =>
      rw [hf] at h
      simp only at h
      split at h <;> cases h
    | error fault =>
      rw [hf] at h
      simp only at h
      injection h with h
      subst h
      unfold fullPropagationMGA at hf
      cases ha : trajectoryArguments inp with
      | none => rw [ha] at hf; cases hf
      | some arguments =>
        simp only [ha] at hf
        cases ht : env.trajectoryManeuvers (State.fresh bodyMap).bodyMap arguments with
        | mk result bodyMap' =>
          cases result with
          | error e' =>
            simp only [ht] at hf
            injection hf with hf
            injection hf with h1 h2
            injection h1 with h1
            subst h1 h2
            exact ⟨arguments, bodyMap', rfl, ht, rfl⟩
          | ok positionVector =>
            simp only [ht] at hf
            cases hr : resolveTimeOfFlight inp.numberOfLegs inp.legTypeVector
                inp.trajectoryVariableVector with
            | none => rw [hr] at hf; cases hf
            | some timeOfFlightVector =>
              simp only [hr] at hf
              exact absurd hcalls (propagationLoop_thrown_calls env inp positionVector
                timeOfFlightVector _ e _ st hf)
  · rintro ⟨arguments, bodyMap', ha, ht, hst⟩
    subst hst
    refine ⟨?_, rfl⟩
    apply getDifference_of_error
    unfold fullPropagationMGA
    simp only [ha]
    have ht' : env.trajectoryManeuvers (State.fresh bodyMap).bodyMap arguments
        = (.error e, bodyMap') := ht
    simp only [ht']

theorem getDifference_of_throw {T : ExternalTypes} (env : Collaborators T) (inp : Inputs T)
    (bodyMap0 : T.NamedBodyMap) (arguments : TrajectoryArguments)
    (positionVector : List Vector3d) (bodyMap1 : T.NamedBodyMap) (timeOfFlightVector : List ℚ)
    (k : Nat) (sk : State T) (c : PropagationCall T) (e : T.Exception)
    (bodyMap' : T.NamedBodyMap)
    (ha : trajectoryArguments inp = some arguments)
    (ht : env.trajectoryManeuvers bodyMap0 arguments = (.ok positionVector, bodyMap1))
    (hr : resolveTimeOfFlight inp.numberOfLegs inp.legTypeVector inp.trajectoryVariableVector
      = some timeOfFlightVector)
    (hk : (k : Int) ≤ getDifference_numberLegsIncludingDSM inp.trajectoryVariableVector.length
      inp.numberOfLegs - 2)
    (hbefore : propagationLoop env inp positionVector timeOfFlightVector k
      { State.fresh bodyMap0 with bodyMap := bodyMap1 } = .ok sk)
    (hc : propagationCall inp positionVector timeOfFlightVector k = some c)
    (hthrow : env.propagateLambertTargeterAndFullProblem sk.bodyMap c = (.error e, bodyMap')) :
    getDifferenceFullPropagationWrtLambertTargeterMGA env inp bodyMap0
      = .error (.thrown e, { sk with bodyMap := bodyMap', calls := sk.calls ++ [c] }) ∧
    sk.calls.length = k := by
  have heq : getDifference_numberLegsIncludingDSM inp.trajectoryVariableVector.length
    inp.numberOfLegs = fullPropagationMGA_numberLegsIncludingDSM
      inp.trajectoryVariableVector.length inp.numberOfLegs := rfl
  constructor
  · apply getDifference_of_error
    rw [fullPropagationMGA_of_loop env inp (State.fresh bodyMap0) arguments positionVector
      bodyMap1 timeOfFlightVector ha ht hr]
    have hstep := propagationStep_of_throw env inp positionVector timeOfFlightVector k sk c e
      bodyMap' hc hthrow
    unfold propagationLoop at hbefore ⊢
    apply forLoop_except_error_mono _ _ (k + 1) _ _ _ (by omega)
    rw [forLoop_succ, hbefore]
    exact hstep
  · obtain ⟨⟨cs, hcs, hmap⟩, _, _⟩ :=
      propagationLoop_eq_ok env inp positionVector timeOfFlightVector _ k sk hbefore
    obtain ⟨hlen, _⟩ := getElem?_of_map_some cs _ _ hmap
    rw [hcs]
    simp [State.fresh, hlen]

theorem getDifference_numberLegsIncludingDSM_eq (size n : Int) (h : 0 ≤ size - 1 + 3 * n) :
    getDifference_numberLegsIncludingDSM size n = (size - 1 - n) / 4 + n :=
  numberLegsIncludingDSM_eq size n h

theorem threeLegInputs_numberLegsIncludingDSM :
    getDifference_numberLegsIncludingDSM threeLegInputs.trajectoryVariableVector.length
      threeLegInputs.numberOfLegs = 3 := by
  rw [getDifference_numberLegsIncludingDSM_eq _ _ (by decide)]
  decide

theorem inconsistentInputs_numberLegsIncludingDSM :
    getDifference_numberLegsIncludingDSM inconsistentInputs.trajectoryVariableVector.length
      inconsistentInputs.numberOfLegs = 2 := by
  rw [getDifference_numberLegsIncludingDSM_eq _ _ (by decide)]
  decide

theorem emptyLegInputs_numberLegsIncludingDSM :
    getDifference_numberLegsIncludingDSM emptyLegInputs.trajectoryVariableVector.length
      emptyLegInputs.numberOfLegs = 0 := by
  rw [getDifference_numberLegsIncludingDSM_eq _ _ (by decide)]
  decide

theorem reliableCollaborators_succeed (bodyMap : exampleTypes.NamedBodyMap)
    (c : PropagationCall exampleTypes) :
    ∃ lambert full bodyMap',
      reliableCollaborators.propagateLambertTargeterAndFullProblem bodyMap c
        = (.ok (lambert, full), bodyMap') ∧
      lambert.entries ≠ [] ∧ full.entries ≠ [] :=
  ⟨exampleLambertHistory, exampleFullHistory, bodyMap + 1, rfl,
    by simp [exampleLambertHistory], by simp [exampleFullHistory]⟩

theorem reliable_threeLegInputs_returns :
    ∃ res st, getDifferenceFullPropagationWrtLambertTargeterMGA reliableCollaborators
      threeLegInputs 0 = .ok (res, st) := by
  have hN := threeLegInputs_numberLegsIncludingDSM
  exact getDifference_total reliableCollaborators threeLegInputs 0 _ examplePositions 1
    [10, 20] rfl rfl rfl (by rw [hN]; decide) (by rw [hN]; decide) (by rw [hN]; decide)
    reliableCollaborators_succeed

/-! ## Claims on the two functions -/

/-- Counterexample to C5: with two legs and a parameter vector of length `4`
(`4 - 1 - 2 = 1` is not a multiple of `4`) the function reports no error: it returns a map
with one entry after one propagation call; with no leg at all it returns the empty map. -/
theorem inconsistent_length_is_not_reported :
    (¬ ∃ d : Int, 0 ≤ d ∧
      (inconsistentInputs.trajectoryVariableVector.length : Int) - 1
        - inconsistentInputs.numberOfLegs = 4 * d) ∧
    (∃ res st, getDifferenceFullPropagationWrtLambertTargeterMGA reliableCollaborators
        inconsistentInputs 0 = .ok (res, st) ∧ st.calls.length = 1 ∧ res.keys = [0]) ∧
    emptyLegInputs.legTypeVector = [] ∧
    (∃ res st, getDifferenceFullPropagationWrtLambertTargeterMGA reliableCollaborators
        emptyLegInputs 0 = .ok (res, st) ∧ st.calls.length = 0 ∧ res.keys = []) := by
  refine ⟨?_, ?_, rfl, ?_⟩
  · rintro ⟨d, hd0, hd⟩
    have h1 : (inconsistentInputs.trajectoryVariableVector.length : Int) - 1
        - inconsistentInputs.numberOfLegs = 1 := by decide
    omega
  · have hN := inconsistentInputs_numberLegsIncludingDSM
    obtain ⟨res, st, h⟩ := getDifference_total reliableCollaborators inconsistentInputs 0 _
      examplePositions 1 [10] rfl rfl rfl (by rw [hN]; decide) (by rw [hN]; decide)
      (by rw [hN]; decide) reliableCollaborators_succeed
    obtain ⟨hf, hkeys, _⟩ := getDifference_ok_spec _ _ _ res st h
    obtain ⟨_, _, _, _, cs, _, _, _, hcs, hlen, _⟩ := fullPropagationMGA_ok_spec _ _ _ st hf
    rw [hN] at hkeys
    have hN' : fullPropagationMGA_numberLegsIncludingDSM
      inconsistentInputs.trajectoryVariableVector.length inconsistentInputs.numberOfLegs = 2 :=
      hN
    rw [hN'] at hlen
    refine ⟨res, st, h, ?_, by rw [hkeys]; rfl⟩
    rw [hcs]
    simp [State.fresh, hlen]
  · have hN := emptyLegInputs_numberLegsIncludingDSM
    obtain ⟨res, st, h⟩ := getDifference_total reliableCollaborators emptyLegInputs 0 _
      examplePositions 1 [] rfl rfl rfl (by rw [hN]; decide) (by rw [hN]; decide)
      (by rw [hN]; decide) reliableCollaborators_succeed
    obtain ⟨hf, hkeys, _⟩ := getDifference_ok_spec _ _ _ res st h
    obtain ⟨_, _, _, _, cs, _, _, _, hcs, hlen, _⟩ := fullPropagationMGA_ok_spec _ _ _ st hf
    rw [hN] at hkeys
    have hN' : fullPropagationMGA_numberLegsIncludingDSM
      emptyLegInputs.trajectoryVariableVector.length emptyLegInputs.numberOfLegs = 0 := hN
    rw [hN'] at hlen
    refine ⟨res, st, h, ?_, by rw [hkeys]; rfl⟩
    rw [hcs]
    simp [State.fresh, hlen]

/-- C5 as amended: the function makes no check of the vector length or of the leg sequence.
It reports an exception before any leg is propagated exactly when the trajectory evaluator
throws that exception; and whenever it returns, it has made
`numberLegsIncludingDSM - 1` propagation calls for the truncated leg count
`numberLegsIncludingDSM`. -/
theorem exception_before_propagation_iff_evaluator_throws {T : ExternalTypes}
    (env : Collaborators T) (inp : Inputs T) (bodyMap : T.NamedBodyMap) :
    (∀ e st, (getDifferenceFullPropagationWrtLambertTargeterMGA env inp bodyMap
          = .error (.thrown e, st) ∧ st.calls = []) ↔
        ∃ arguments bodyMap', trajectoryArguments inp = some arguments ∧
          env.trajectoryManeuvers bodyMap arguments = (.error e, bodyMap') ∧
          st = { State.fresh bodyMap with bodyMap := bodyMap' }) ∧
    (∀ res st, getDifferenceFullPropagationWrtLambertTargeterMGA env inp bodyMap
        = .ok (res, st) →
      st.calls.length = (truncateToInt
        ((((inp.trajectoryVariableVector.length : Int) - 1 - inp.numberOfLegs : Int) : ℚ) / 4
          + (inp.numberOfLegs : ℚ)) - 1).toNat) := by
  refine ⟨fun e st => getDifference_thrown_before_call env inp bodyMap e st, ?_⟩
  intro res st h
  obtain ⟨hf, _, _⟩ := getDifference_ok_spec env inp bodyMap res st h
  obtain ⟨_, _, _, _, cs, _, _, _, hcs, hlen, _⟩ := fullPropagationMGA_ok_spec _ _ _ st hf
  rw [hcs]
  simp only [State.fresh, List.nil_append]
  exact hlen

/-- Witness of C5 as amended: the run on the vector of inconsistent length returns, after
one propagation call. -/
theorem exception_before_propagation_iff_evaluator_throws_witness :
    ∃ res st, getDifferenceFullPropagationWrtLambertTargeterMGA reliableCollaborators
        inconsistentInputs 0 = .ok (res, st) ∧
      st.calls.length = (truncateToInt
        ((((inconsistentInputs.trajectoryVariableVector.length : Int) - 1
          - inconsistentInputs.numberOfLegs : Int) : ℚ) / 4
          + (inconsistentInputs.numberOfLegs : ℚ)) - 1).toNat := by
  have hN := inconsistentInputs_numberLegsIncludingDSM
  obtain ⟨res, st, h⟩ := getDifference_total reliableCollaborators inconsistentInputs 0 _
    examplePositions 1 [10] rfl rfl rfl (by rw [hN]; decide) (by rw [hN]; decide)
    (by rw [hN]; decide) reliableCollaborators_succeed
  exact ⟨res, st, h,
    (exception_before_propagation_iff_evaluator_throws reliableCollaborators
      inconsistentInputs 0).2 res st h⟩

/-- Counterexample to C6: the propagation throws on the second of two evaluation legs and
returns on every other leg; the function returns no map at all, so the residual of the first
leg is not in its result. -/
theorem failing_leg_discards_other_legs :
    (∃ c0, propagationCall threeLegInputs examplePositions [10, 20] 0 = some c0 ∧
      failingCollaborators.propagateLambertTargeterAndFullProblem 1 c0
        = (.ok (exampleLambertHistory, exampleFullHistory), 2)) ∧
    (∃ st, getDifferenceFullPropagationWrtLambertTargeterMGA failingCollaborators
        threeLegInputs 0 = .error (.thrown "IntegrationError", st) ∧ st.calls.length = 2) ∧
    ¬ ∃ res st, getDifferenceFullPropagationWrtLambertTargeterMGA failingCollaborators
        threeLegInputs 0 = .ok (res, st) := by
  have hN := threeLegInputs_numberLegsIncludingDSM
  obtain ⟨h, hlen⟩ := getDifference_of_throw failingCollaborators threeLegInputs 0 _
    examplePositions 1 [10, 20] 1 _ _ "IntegrationError" 3 rfl rfl rfl
    (by rw [hN]; decide) rfl rfl rfl
  refine ⟨⟨_, rfl, rfl⟩, ⟨_, h, ?_⟩, ?_⟩
  · rfl
  · rintro ⟨res, st, hok⟩
    rw [h] at hok
    cases hok

/-- C6 as amended: when the propagation of evaluation leg `k` throws after the legs before
it have returned, the function returns no map: it ends with that exception after `k + 1`
propagation calls, the legs after `k` are never propagated. -/
theorem propagation_exception_aborts_run {T : ExternalTypes} (env : Collaborators T)
    (inp : Inputs T) (bodyMap0 : T.NamedBodyMap) (arguments : TrajectoryArguments)
    (positionVector : List Vector3d) (bodyMap1 : T.NamedBodyMap) (timeOfFlightVector : List ℚ)
    (k : Nat) (sk : State T) (c : PropagationCall T) (e : T.Exception)
    (bodyMap' : T.NamedBodyMap)
    (ha : trajectoryArguments inp = some arguments)
    (ht : env.trajectoryManeuvers bodyMap0 arguments = (.ok positionVector, bodyMap1))
    (hr : resolveTimeOfFlight inp.numberOfLegs inp.legTypeVector inp.trajectoryVariableVector
      = some timeOfFlightVector)
    (hk : (k : Int) ≤ getDifference_numberLegsIncludingDSM inp.trajectoryVariableVector.length
      inp.numberOfLegs - 2)
    (hbefore : propagationLoop env inp positionVector timeOfFlightVector k
      { State.fresh bodyMap0 with bodyMap := bodyMap1 } = .ok sk)
    (hc : propagationCall inp positionVector timeOfFlightVector k = some c)
    (hthrow : env.propagateLambertTargeterAndFullProblem sk.bodyMap c = (.error e, bodyMap')) :
    ∃ st, getDifferenceFullPropagationWrtLambertTargeterMGA env inp bodyMap0
        = .error (.thrown e, st) ∧
      st.calls.length = k + 1 ∧
      ∀ res st', getDifferenceFullPropagationWrtLambertTargeterMGA env inp bodyMap0
        ≠ .ok (res, st') := by
  obtain ⟨h, hlen⟩ := getDifference_of_throw env inp bodyMap0 arguments positionVector
    bodyMap1 timeOfFlightVector k sk c e bodyMap' ha ht hr hk hbefore hc hthrow
  refine ⟨_, h, by simp [hlen], ?_⟩
  intro res st' hok
  rw [h] at hok
  cases hok

/-- Witness of C6 as amended: the propagation throws on the second evaluation leg. -/
theorem propagation_exception_aborts_run_witness :
    ∃ st, getDifferenceFullPropagationWrtLambertTargeterMGA failingCollaborators
        threeLegInputs 0 = .error (.thrown "IntegrationError", st) ∧
      st.calls.length = 1 + 1 ∧
      ∀ res st', getDifferenceFullPropagationWrtLambertTargeterMGA failingCollaborators
        threeLegInputs 0 ≠ .ok (res, st') :=
  propagation_exception_aborts_run failingCollaborators threeLegInputs 0 _
    examplePositions 1 [10, 20] 1 _ _ "IntegrationError" 3 rfl rfl rfl
    (by rw [threeLegInputs_numberLegsIncludingDSM]; decide) rfl rfl rfl

/-- C7: for an evaluation leg whose analytic history `A` and numerical history `N` are both
non-empty, the pair stored under its key is `(A(min epoch of A) - N(min epoch of N),
A(max epoch of A) - N(max epoch of N))`, the subtraction being taken on each of the six
components, analytic minus numerical, departure first, without scaling. -/
theorem residual_is_endpoint_difference {T : ExternalTypes} (env : Collaborators T)
    (inp : Inputs T) (bodyMap : T.NamedBodyMap) (res : ResidualMap) (st : State T)
    (h : getDifferenceFullPropagationWrtLambertTargeterMGA env inp bodyMap = .ok (res, st))
    (i : Nat)
    (hi : (i : Int) ≤ getDifference_numberLegsIncludingDSM inp.trajectoryVariableVector.length
      inp.numberOfLegs - 2)
    (lambert full : StateHistory)
    (hl : st.lambertTargeterResultForEachLeg.find? i = some lambert)
    (hf : st.fullProblemResultForEachLeg.find? i = some full)
    (hne1 : lambert.entries ≠ []) (hne2 : full.entries ≠ []) :
    fullPropagationMGA env inp (State.fresh bodyMap) = .ok st ∧
    ∃ tA0 a0 tA1 a1 tN0 n0 tN1 n1 departure arrival,
      (tA0 ∈ lambert.keys ∧ (∀ t ∈ lambert.keys, tA0 ≤ t) ∧ lambert.find? tA0 = some a0) ∧
      (tA1 ∈ lambert.keys ∧ (∀ t ∈ lambert.keys, t ≤ tA1) ∧ lambert.find? tA1 = some a1) ∧
      (tN0 ∈ full.keys ∧ (∀ t ∈ full.keys, tN0 ≤ t) ∧ full.find? tN0 = some n0) ∧
      (tN1 ∈ full.keys ∧ (∀ t ∈ full.keys, t ≤ tN1) ∧ full.find? tN1 = some n1) ∧
      res.find? i = some (departure, arrival) ∧
      ∀ component : Fin 6,
        departure component = a0 component - n0 component ∧
        arrival component = a1 component - n1 component := by
  obtain ⟨hfull, _, hfind⟩ := getDifference_ok_spec env inp bodyMap res st h
  obtain ⟨lambert', full', d, hl', hf', hd, hres⟩ := hfind i hi
  rw [hl] at hl'
  rw [hf] at hf'
  injection hl' with hl'
  injection hf' with hf'
  subst hl' hf'
  obtain ⟨tA0, a0, tA1, a1, tN0, n0, tN1, n1, h1, h2, h3, h4, hspec⟩ :=
    endpointDifference_spec lambert full hne1 hne2
  rw [hspec] at hd
  injection hd with hd
  subst hd
  exact ⟨hfull, tA0, a0, tA1, a1, tN0, n0, tN1, n1, a0 - n0, a1 - n1, h1, h2, h3, h4, hres,
    fun component => ⟨rfl, rfl⟩⟩

/-- Witness of C7: the first evaluation leg of a run on three legs. -/
theorem residual_is_endpoint_difference_witness :
    ∃ (res : ResidualMap) (st : State exampleTypes) (lambert full : StateHistory),
      getDifferenceFullPropagationWrtLambertTargeterMGA reliableCollaborators threeLegInputs 0
        = .ok (res, st) ∧
      st.lambertTargeterResultForEachLeg.find? 0 = some lambert ∧
      st.fullProblemResultForEachLeg.find? 0 = some full ∧
      lambert.entries ≠ [] ∧ full.entries ≠ [] ∧
      ∃ tA0 a0 tA1 a1 tN0 n0 tN1 n1 departure arrival,
        (tA0 ∈ lambert.keys ∧ (∀ t ∈ lambert.keys, tA0 ≤ t) ∧ lambert.find? tA0 = some a0) ∧
        (tA1 ∈ lambert.keys ∧ (∀ t ∈ lambert.keys, t ≤ tA1) ∧ lambert.find? tA1 = some a1) ∧
        (tN0 ∈ full.keys ∧ (∀ t ∈ full.keys, tN0 ≤ t) ∧ full.find? tN0 = some n0) ∧
        (tN1 ∈ full.keys ∧ (∀ t ∈ full.keys, t ≤ tN1) ∧ full.find? tN1 = some n1) ∧
        res.find? ((0 : Nat) : Int) = some (departure, arrival) ∧
        ∀ component : Fin 6,
          departure component = a0 component - n0 component ∧
          arrival component = a1 component - n1 component := by
  obtain ⟨res, st, h⟩ := reliable_threeLegInputs_returns
  have hi : ((0 : Nat) : Int) ≤ getDifference_numberLegsIncludingDSM
      threeLegInputs.trajectoryVariableVector.length threeLegInputs.numberOfLegs - 2 := by
    rw [threeLegInputs_numberLegsIncludingDSM]; decide
  obtain ⟨_, _, hfind⟩ := getDifference_ok_spec _ _ _ res st h
  obtain ⟨lambert, full, d, hl, hf, hd, _⟩ := hfind 0 hi
  obtain ⟨hne1, hne2⟩ := endpointDifference_eq_some lambert full d hd
  exact ⟨res, st, lambert, full, h, hl, hf, hne1, hne2,
    (residual_is_endpoint_difference reliableCollaborators threeLegInputs 0 res st h 0 hi
      lambert full hl hf hne1 hne2).2⟩

/-- C8: a map returned by the function has exactly the keys
`0, 1, ..., numberLegsIncludingDSM - 2` (none when `numberLegsIncludingDSM ≤ 1`), and its
entry at key `i` is the endpoint difference of the two histories `fullPropagationMGA` stored
under key `i`; the function returns such a map when its reads are in range and every
collaborator call returns, the propagation with non-empty histories. -/
theorem result_keys_and_entries {T : ExternalTypes} (env : Collaborators T) (inp : Inputs T)
    (bodyMap0 : T.NamedBodyMap) :
    (∀ res st, getDifferenceFullPropagationWrtLambertTargeterMGA env inp bodyMap0
        = .ok (res, st) →
      fullPropagationMGA env inp (State.fresh bodyMap0) = .ok st ∧
      res.keys = (List.range (getDifference_numberLegsIncludingDSM
        inp.trajectoryVariableVector.length inp.numberOfLegs - 1).toNat).map Int.ofNat ∧
      res.entries.length = (getDifference_numberLegsIncludingDSM
        inp.trajectoryVariableVector.length inp.numberOfLegs - 1).toNat ∧
      (getDifference_numberLegsIncludingDSM inp.trajectoryVariableVector.length
        inp.numberOfLegs ≤ 1 → res.entries = []) ∧
      ∀ i : Nat, (i : Int) ≤ getDifference_numberLegsIncludingDSM
          inp.trajectoryVariableVector.length inp.numberOfLegs - 2 →
        ∃ lambert full d,
          st.lambertTargeterResultForEachLeg.find? i = some lambert ∧
          st.fullProblemResultForEachLeg.find? i = some full ∧
          endpointDifference lambert full = some d ∧
          res.find? i = some d) ∧
    (∀ arguments positionVector bodyMap timeOfFlightVector,
      trajectoryArguments inp = some arguments →
      env.trajectoryManeuvers bodyMap0 arguments = (.ok positionVector, bodyMap) →
      resolveTimeOfFlight inp.numberOfLegs inp.legTypeVector inp.trajectoryVariableVector
        = some timeOfFlightVector →
      getDifference_numberLegsIncludingDSM inp.trajectoryVariableVector.length
        inp.numberOfLegs ≤ positionVector.length →
      getDifference_numberLegsIncludingDSM inp.trajectoryVariableVector.length
        inp.numberOfLegs ≤ inp.bodiesAndManoeuvresOrder.length →
      getDifference_numberLegsIncludingDSM inp.trajectoryVariableVector.length
        inp.numberOfLegs - 1 ≤ timeOfFlightVector.length →
      (∀ bodyMap c, ∃ lambert full bodyMap',
        env.propagateLambertTargeterAndFullProblem bodyMap c
          = (.ok (lambert, full), bodyMap') ∧
        lambert.entries ≠ [] ∧ full.entries ≠ []) →
      ∃ res st, getDifferenceFullPropagationWrtLambertTargeterMGA env inp bodyMap0
        = .ok (res, st)) := by
  constructor
  · intro res st h
    obtain ⟨hf, hkeys, hfind⟩ := getDifference_ok_spec env inp bodyMap0 res st h
    have hlen : res.entries.length = (getDifference_numberLegsIncludingDSM
        inp.trajectoryVariableVector.length inp.numberOfLegs - 1).toNat := by
      have := congrArg List.length hkeys
      simpa [StdMap.keys] using this
    refine ⟨hf, hkeys, hlen, ?_, hfind⟩
    intro hle
    have h0 : (getDifference_numberLegsIncludingDSM inp.trajectoryVariableVector.length
        inp.numberOfLegs - 1).toNat = 0 := by omega
    rw [h0] at hlen
    exact List.length_eq_zero.mp hlen
  · intro arguments positionVector bodyMap timeOfFlightVector ha ht hr hpos hbodies htof hsucc
    exact getDifference_total env inp bodyMap0 arguments positionVector bodyMap
      timeOfFlightVector ha ht hr hpos hbodies htof hsucc

/-- Witness of C8: a run on three legs returns a map with the keys `0` and `1`. -/
theorem result_keys_and_entries_witness :
    ∃ (res : ResidualMap) (st : State exampleTypes),
      getDifferenceFullPropagationWrtLambertTargeterMGA reliableCollaborators threeLegInputs 0
        = .ok (res, st) ∧
      res.keys = [0, 1] := by
  have hN := threeLegInputs_numberLegsIncludingDSM
  obtain ⟨res, st, h⟩ :=
    (result_keys_and_entries reliableCollaborators threeLegInputs 0).2 _ examplePositions 1
      [10, 20] rfl rfl rfl (by rw [hN]; decide) (by rw [hN]; decide) (by rw [hN]; decide)
      reliableCollaborators_succeed
  have hkeys := ((result_keys_and_entries reliableCollaborators threeLegInputs 0).1
    res st h).2.1
  rw [hN] at hkeys
  exact ⟨res, st, h, by rw [hkeys]; rfl⟩

/-- C10: a returning run of `fullPropagationMGA` has made exactly
`numberLegsIncludingDSM - 1` propagation calls, the call of index `i` with departure
position `positionVector[i]`, arrival position `positionVector[i+1]`, time of flight
`timeOfFlightVector[i]`, initial time `0` and the bodies `bodiesAndManoeuvresOrder[i]`,
`bodiesAndManoeuvresOrder[i+1]`, and has stored the two histories of that call under key `i`
in both output maps; the run returns when its reads are in range and the collaborators
return. -/
theorem one_propagation_call_per_evaluation_leg {T : ExternalTypes} (env : Collaborators T)
    (inp : Inputs T) (st0 : State T) :
    (∀ st, fullPropagationMGA env inp st0 = .ok st →
      ∃ arguments positionVector bodyMap timeOfFlightVector cs,
        trajectoryArguments inp = some arguments ∧
        env.trajectoryManeuvers st0.bodyMap arguments = (.ok positionVector, bodyMap) ∧
        resolveTimeOfFlight inp.numberOfLegs inp.legTypeVector inp.trajectoryVariableVector
          = some timeOfFlightVector ∧
        st.calls = st0.calls ++ cs ∧
        cs.length = (fullPropagationMGA_numberLegsIncludingDSM
          inp.trajectoryVariableVector.length inp.numberOfLegs - 1).toNat ∧
        ∀ i : Nat, (i : Int) ≤ fullPropagationMGA_numberLegsIncludingDSM
            inp.trajectoryVariableVector.length inp.numberOfLegs - 2 →
          ∃ c si lambert full bodyMap',
            cs[i]? = some c ∧
            positionVector[i]? = some c.cartesianPositionAtDeparture ∧
            positionVector[i + 1]? = some c.cartesianPositionAtArrival ∧
            timeOfFlightVector[i]? = some c.timeOfFlight ∧
            c.initialTime = 0 ∧
            (∃ body0 body1, inp.bodiesAndManoeuvresOrder[i]? = some body0 ∧
              inp.bodiesAndManoeuvresOrder[i + 1]? = some body1 ∧
              c.departureAndArrivalBodies = [body0, body1]) ∧
            propagationLoop env inp positionVector timeOfFlightVector i
              { st0 with bodyMap := bodyMap } = .ok si ∧
            env.propagateLambertTargeterAndFullProblem si.bodyMap c
              = (.ok (lambert, full), bodyMap') ∧
            st.lambertTargeterResultForEachLeg.find? i = some lambert ∧
            st.fullProblemResultForEachLeg.find? i = some full) ∧
    (∀ arguments positionVector bodyMap timeOfFlightVector,
      trajectoryArguments inp = some arguments →
      env.trajectoryManeuvers st0.bodyMap arguments = (.ok positionVector, bodyMap) →
      resolveTimeOfFlight inp.numberOfLegs inp.legTypeVector inp.trajectoryVariableVector
        = some timeOfFlightVector →
      fullPropagationMGA_numberLegsIncludingDSM inp.trajectoryVariableVector.length
        inp.numberOfLegs ≤ positionVector.length →
      fullPropagationMGA_numberLegsIncludingDSM inp.trajectoryVariableVector.length
        inp.numberOfLegs ≤ inp.bodiesAndManoeuvresOrder.length →
      fullPropagationMGA_numberLegsIncludingDSM inp.trajectoryVariableVector.length
        inp.numberOfLegs - 1 ≤ timeOfFlightVector.length →
      (∀ bodyMap c, ∃ histories bodyMap',
        env.propagateLambertTargeterAndFullProblem bodyMap c = (.ok histories, bodyMap')) →
      ∃ st, fullPropagationMGA env inp st0 = .ok st) :=
  ⟨fun st h => fullPropagationMGA_ok_spec env inp st0 st h,
    fun arguments positionVector bodyMap timeOfFlightVector ha ht hr hpos hbodies htof hsucc =>
      fullPropagationMGA_total env inp st0 arguments positionVector bodyMap timeOfFlightVector
        ha ht hr hpos hbodies htof hsucc⟩

/-- Witness of C10: a run on three legs makes two propagation calls. -/
theorem one_propagation_call_per_evaluation_leg_witness :
    ∃ st : State exampleTypes,
      fullPropagationMGA reliableCollaborators threeLegInputs (State.fresh 0) = .ok st ∧
      st.calls.length = 2 ∧
      ∃ c, st.calls[1]? = some c ∧ c.timeOfFlight = 20 ∧
        c.departureAndArrivalBodies = ["Venus", "Mars"] := by
  have hN : fullPropagationMGA_numberLegsIncludingDSM
      threeLegInputs.trajectoryVariableVector.length threeLegInputs.numberOfLegs = 3 :=
    threeLegInputs_numberLegsIncludingDSM
  obtain ⟨st, h⟩ :=
    (one_propagation_call_per_evaluation_leg reliableCollaborators threeLegInputs
      (State.fresh 0)).2 _ examplePositions 1 [10, 20] rfl rfl rfl
      (by rw [hN]; decide) (by rw [hN]; decide) (by rw [hN]; decide)
      (fun bodyMap _ => ⟨(exampleLambertHistory, exampleFullHistory), bodyMap + 1, rfl⟩)
  obtain ⟨arguments, positionVector, bodyMap, timeOfFlightVector, cs, _, ht, hr, hcs, hlen,
    hcalls⟩ := (one_propagation_call_per_evaluation_leg reliableCollaborators threeLegInputs
      (State.fresh 0)).1 st h
  rw [hN] at hlen hcalls
  obtain ⟨c, _, _, _, _, hc, _, _, htof, _, ⟨b0, b1, hb0, hb1, hb⟩, _⟩ :=
    hcalls 1 (by decide)
  have hr' : resolveTimeOfFlight threeLegInputs.numberOfLegs threeLegInputs.legTypeVector
      threeLegInputs.trajectoryVariableVector = some [10, 20] := rfl
  rw [hr'] at hr
  injection hr with hr
  subst hr
  have hcs' : st.calls = cs := by rw [hcs]; rfl
  refine ⟨st, h, by rw [hcs', hlen]; rfl, c, by rw [hcs']; exact hc, ?_, ?_⟩
  · have h20 : ([10, 20] : List ℚ)[1]? = some 20 := rfl
    rw [h20] at htof
    injection htof with htof
    exact htof.symm
  · have e0 : threeLegInputs.bodiesAndManoeuvresOrder[1]? = some "Venus" := rfl
    have e1 : threeLegInputs.bodiesAndManoeuvresOrder[1 + 1]? = some "Mars" := rfl
    rw [e0] at hb0
    rw [e1] at hb1
    injection hb0 with hb0
    injection hb1 with hb1
    rw [hb, ← hb0, ← hb1]

/-! ## Length of the resolved vector against the leg count -/

theorem dsmLegsBefore_mono (legs : List TransferLegType) (j : Nat) :
    ∀ m : Nat, j ≤ m → dsmLegsBefore legs j ≤ dsmLegsBefore legs m := by
  intro m
  induction m with
  | zero =>
    intro h
    have : j = 0 := by omega
    subst this
    exact Nat.le_refl _
  | succ m ih =>
    intro h
    by_cases hj : j = m + 1
    · subst hj; exact Nat.le_refl _
    · have := ih (by omega)
      rw [dsmLegsBefore_succ]
      omega

theorem dsmLegsBefore_eq_count_take (legs : List TransferLegType) :
    ∀ j : Nat, j ≤ legs.length →
      dsmLegsBefore legs j = (legs.take j).count TransferLegType.mga_SwingbyWithDSM := by
  intro j
  induction j with
  | zero => intro _; simp [dsmLegsBefore]
  | succ j ih =>
    intro hj
    have hlt : j < legs.length := by omega
    rw [dsmLegsBefore_succ, ih (by omega), List.take_succ, List.getElem?_eq_getElem hlt,
      List.count_append]
    have hc : carriesDSM legs j = (legs[j] == TransferLegType.mga_SwingbyWithDSM) := by
      unfold carriesDSM
      rw [List.getElem?_eq_getElem hlt]
      cases legs[j] <;> rfl
    rw [hc]
    cases legs[j] <;> rfl

theorem dsmLegsBefore_length (legs : List TransferLegType) :
    dsmLegsBefore legs legs.length = legs.count TransferLegType.mga_SwingbyWithDSM := by
  rw [dsmLegsBefore_eq_count_take legs legs.length (Nat.le_refl _), List.take_length]

theorem carriesDSM_last_eq_false (legs : List TransferLegType)
    (h : legs.getLast? ≠ some TransferLegType.mga_SwingbyWithDSM) :
    carriesDSM legs (legs.length - 1) = false := by
  unfold carriesDSM
  rw [← List.getLast?_eq_getElem?]
  cases hl : legs.getLast? with
  | none => rfl
  | some leg =>
    rw [hl] at h
    cases leg
    · rfl
    · rfl
    · exact absurd rfl h

theorem lastLegDSMInputs_numberLegsIncludingDSM :
    fullPropagationMGA_numberLegsIncludingDSM lastLegDSMInputs.trajectoryVariableVector.length
      lastLegDSMInputs.numberOfLegs = 3 := by
  rw [numberLegsIncludingDSM_eq _ _ (by decide)]
  decide

/-- Counterexample to C11: two legs, the last one with the DSM, and a parameter vector of
length `1 + 2 + 4 * 1`. The resolver visits leg `0` only and emits one value, while
`numberLegsIncludingDSM - 1 = 2`; the read `timeOfFlightVector[1]` of the second iteration
of the propagation loop is out of range. -/
theorem last_leg_dsm_leaves_vector_short :
    (1 ≤ lastLegDSMInputs.numberOfLegs ∧
      (lastLegDSMInputs.legTypeVector.length : Int) = lastLegDSMInputs.numberOfLegs ∧
      (lastLegDSMInputs.trajectoryVariableVector.length : Int)
        = 1 + lastLegDSMInputs.numberOfLegs
          + 4 * (lastLegDSMInputs.legTypeVector.count TransferLegType.mga_SwingbyWithDSM : Int)) ∧
    resolveTimeOfFlight lastLegDSMInputs.numberOfLegs lastLegDSMInputs.legTypeVector
      lastLegDSMInputs.trajectoryVariableVector = some [10] ∧
    fullPropagationMGA_numberLegsIncludingDSM lastLegDSMInputs.trajectoryVariableVector.length
      lastLegDSMInputs.numberOfLegs - 1 = 2 ∧
    index? ([10] : List ℚ) 1 = none ∧
    ∃ st, fullPropagationMGA reliableCollaborators lastLegDSMInputs (State.fresh 0)
        = .error (.undefinedBehaviour, st) ∧ st.calls.length = 1 := by
  have hN := lastLegDSMInputs_numberLegsIncludingDSM
  refine ⟨⟨by decide, by decide, by decide⟩, rfl, by rw [hN]; rfl, rfl, ?_⟩
  rw [fullPropagationMGA_of_loop reliableCollaborators lastLegDSMInputs (State.fresh 0) _
    examplePositions 1 [10] rfl rfl rfl, hN]
  exact ⟨_, rfl, rfl⟩

/-- C11 as amended: for `numberOfLegs = n ≥ 1`, a leg-type sequence of length `n` with `d`
DSM legs of which none is the last leg, and a parameter vector of length `1 + n + 4 * d`, the
resolver returns a `timeOfFlightVector` of exactly `numberLegsIncludingDSM - 1` entries, so
every read `timeOfFlightVector[i]` of the propagation loop, `0 ≤ i ≤ numberLegsIncludingDSM - 2`,
is in range. -/
theorem timeOfFlightVector_length_eq_legs_minus_one (n : Int) (legs : List TransferLegType)
    (v : List ℚ) (hn : 1 ≤ n) (hlen : (legs.length : Int) = n)
    (hlast : legs.getLast? ≠ some TransferLegType.mga_SwingbyWithDSM)
    (hv : (v.length : Int)
      = 1 + n + 4 * (legs.count TransferLegType.mga_SwingbyWithDSM : Int)) :
    ∃ out, resolveTimeOfFlight n legs v = some out ∧
      (out.length : Int) = fullPropagationMGA_numberLegsIncludingDSM v.length n - 1 ∧
      ∀ i : Nat, (i : Int) ≤ fullPropagationMGA_numberLegsIncludingDSM v.length n - 2 →
        ∃ t, index? out i = some t := by
  have hd := dsmLegsBefore_length legs
  have hlastF := carriesDSM_last_eq_false legs hlast
  have hpos : 1 ≤ legs.length := by omega
  have hd' : dsmLegsBefore legs (legs.length - 1)
      = legs.count TransferLegType.mga_SwingbyWithDSM := by
    have hs := dsmLegsBefore_succ legs (legs.length - 1)
    rw [Nat.sub_add_cancel hpos, hlastF, hd] at hs
    simpa using hs.symm
  have hcount : (n - 1).toNat = legs.length - 1 := by omega
  have hreads : ∀ i, i < (n - 1).toNat → readsInRange n legs v i := by
    intro i hi
    refine ⟨by omega, fun hc => ?_⟩
    have h1 := dsmLegsBefore_succ legs i
    rw [hc] at h1
    have h2 := dsmLegsBefore_mono legs (i + 1) (legs.length - 1) (by omega)
    simp only [if_true] at h1
    constructor <;> omega
  have hloop := timeOfFlightLoop_eq n legs v (n - 1).toNat (by omega) hreads
  have hN : fullPropagationMGA_numberLegsIncludingDSM v.length n
      = (legs.count TransferLegType.mga_SwingbyWithDSM : Int) + n := by
    rw [numberLegsIncludingDSM_eq _ _ (by omega), hv]
    omega
  have hlength : ((referenceTimeOfFlight n legs v (n - 1).toNat).length : Int)
      = fullPropagationMGA_numberLegsIncludingDSM v.length n - 1 := by
    rw [referenceTimeOfFlight_length, hN, hcount, hd']
    omega
  refine ⟨referenceTimeOfFlight n legs v (n - 1).toNat, ?_, hlength, ?_⟩
  · unfold resolveTimeOfFlight
    rw [hloop]
    rfl
  · intro i hi
    exact ⟨_, index?_nat_of_lt (by omega)⟩

/-- Witness of C11 as amended: three legs, the second one with the DSM, and a vector of
length `8`. -/
theorem timeOfFlightVector_length_eq_legs_minus_one_witness :
    ∃ out, resolveTimeOfFlight 3
        [TransferLegType.mga_Departure, TransferLegType.mga_SwingbyWithDSM,
          TransferLegType.mga_Swingby] [0, 10, 20, 1, 1 / 4, 0, 0, 0] = some out ∧
      (out.length : Int) = fullPropagationMGA_numberLegsIncludingDSM
        (([0, 10, 20, 1, 1 / 4, 0, 0, 0] : List ℚ).length) 3 - 1 ∧
      ∀ i : Nat, (i : Int) ≤ fullPropagationMGA_numberLegsIncludingDSM
          (([0, 10, 20, 1, 1 / 4, 0, 0, 0] : List ℚ).length) 3 - 2 →
        ∃ t, index? out i = some t :=
  timeOfFlightVector_length_eq_legs_minus_one 3
    [TransferLegType.mga_Departure, TransferLegType.mga_SwingbyWithDSM,
      TransferLegType.mga_Swingby] [0, 10, 20, 1, 1 / 4, 0, 0, 0]
    (by decide) (by decide) (by decide) (by decide)

end Tudat
